import Mathlib

/-!
Verification of the trade admission, sizing and execution engine of the
agentic-trader repository.  Python modules are shallowly embedded:
floats become `ℚ`, environment variables become already-parsed fields of
configuration records, broker calls become explicit inputs (snapshots and
response scripts), and Python dictionaries returned by the functions
become Lean structures / inductives with one constructor per distinct
dictionary shape.
-/

namespace AgenticTrader

/-! ## Generic helpers (Python built-ins used by the code) -/

/-- Python `str.upper` on a string. -/
def strUpper (s : String) : String := String.mk (s.toList.map Char.toUpper)

/-- Python `str.lower` on a string. -/
def strLower (s : String) : String := String.mk (s.toList.map Char.toLower)

/-- Python `needle in hay` substring test, on character lists. -/
def hasSub (needle : List Char) : List Char → Bool
  | [] => needle.isEmpty
  | c :: rest => needle.isPrefixOf (c :: rest) || hasSub needle rest

/-- Python `round(x)` : round half to even, as used by `round(price / ts)`. -/
def roundHalfEven (x : ℚ) : ℤ :=
  let f := ⌊x⌋
  let r := x - (f : ℚ)
  if r < 1/2 then f
  else if 1/2 < r then f + 1
  else if f % 2 = 0 then f else f + 1

/-- Python `round(x, nd)` : round to `nd` decimal places, half to even. -/
def pyRound (nd : ℕ) (x : ℚ) : ℚ :=
  (roundHalfEven (x * (10 : ℚ) ^ nd) : ℚ) / (10 : ℚ) ^ nd

/-- Python `int(x)` : truncation toward zero. -/
def pyTrunc (x : ℚ) : ℤ := if 0 ≤ x then ⌊x⌋ else ⌈x⌉

/-- Python dict assignment `d[k] = v` on an association list (`Int` values). -/
def mapInsertI (k : String) (v : ℤ) : List (String × ℤ) → List (String × ℤ)
  | [] => [(k, v)]
  | (k', v') :: rest =>
      if k' = k then (k, v) :: rest else (k', v') :: mapInsertI k v rest

/-- Python dict assignment `d[k] = v` on an association list (`ℚ` values). -/
def mapInsertQ (k : String) (v : ℚ) : List (String × ℚ) → List (String × ℚ)
  | [] => [(k, v)]
  | (k', v') :: rest =>
      if k' = k then (k, v) :: rest else (k', v') :: mapInsertQ k v rest

theorem roundHalfEven_intCast (n : ℤ) : roundHalfEven (n : ℚ) = n := by
  unfold roundHalfEven
  simp

theorem abs_roundHalfEven_sub (x : ℚ) : |(roundHalfEven x : ℚ) - x| ≤ 1/2 := by
  unfold roundHalfEven
  have hfl : (⌊x⌋ : ℚ) ≤ x := Int.floor_le x
  have hfu : x < (⌊x⌋ : ℚ) + 1 := Int.lt_floor_add_one x
  by_cases h1 : x - (⌊x⌋ : ℚ) < 1/2
  · simp only [h1, if_true]
    rw [abs_le]
    constructor <;> linarith
  · by_cases h2 : (1:ℚ)/2 < x - (⌊x⌋ : ℚ)
    · simp only [h1, if_false, h2, if_true]
      rw [abs_le]
      push_cast
      constructor <;> linarith
    · have heq : x - (⌊x⌋ : ℚ) = 1/2 := le_antisymm (not_lt.mp h2) (not_lt.mp h1)
      by_cases h3 : ⌊x⌋ % 2 = 0
      · simp only [h1, if_false, h2, if_false, h3, if_true]
        rw [abs_le]
        constructor <;> linarith
      · simp only [h1, if_false, h2, if_false, h3, if_false]
        rw [abs_le]
        push_cast
        constructor <;> linarith

theorem ite_singleton_eq_nil {c : Prop} [Decidable c] (s : String) :
    ((if c then [s] else []) = []) ↔ ¬c := by
  split_ifs with h <;> simp [h]

theorem mapInsertI_lookup (k : String) (v : ℤ) :
    ∀ m : List (String × ℤ), (mapInsertI k v m).lookup k = some v := by
  intro m
  induction m with
  | nil => simp [mapInsertI, List.lookup]
  | cons hd tl ih =>
      obtain ⟨k', v'⟩ := hd
      by_cases h : k' = k
      · simp [mapInsertI, h, List.lookup]
      · simp only [mapInsertI, h, if_false]
        rw [List.lookup]
        have hne : (k == k') = false := by
          simp [BEq.beq]
          exact fun hh => h hh.symm
        simp [hne, ih]

theorem mapInsertQ_lookup (k : String) (v : ℚ) :
    ∀ m : List (String × ℚ), (mapInsertQ k v m).lookup k = some v := by
  intro m
  induction m with
  | nil => simp [mapInsertQ, List.lookup]
  | cons hd tl ih =>
      obtain ⟨k', v'⟩ := hd
      by_cases h : k' = k
      · simp [mapInsertQ, h, List.lookup]
      · simp only [mapInsertQ, h, if_false]
        rw [List.lookup]
        have hne : (k == k') = false := by
          simp [BEq.beq]
          exact fun hh => h hh.symm
        simp [hne, ih]

/-! ## `app/risk/guards.py` — stateless pre-trade guard (`check_pretrade_guards`)

Environment variables are embedded as already-parsed fields (the result of
`_env_bool` / `_env_int` / `_env_float` with their defaults); broker reads
(`mt5.positions_get`, `mt5.account_info`, `_market_is_open`) are embedded as
an input snapshot.  The symbol-keyed entries of the module-level cooldown
dict `_last_trade_at` relevant to the call are part of the snapshot. -/

/-- MT5 `account_info()` result (fields the guard reads). -/
structure MT5Account where
  equity : ℚ
  balance : ℚ
  profit : ℚ
deriving DecidableEq

/-- MT5 position (fields the guard reads): `type` (0 = `POSITION_TYPE_BUY`)
and `profit`. -/
structure MT5Position where
  ptype : ℤ
  profit : ℚ
deriving DecidableEq

/-- Parsed environment of `check_pretrade_guards`. -/
structure GuardEnv where
  /-- AGENT_MARKET_CHECK, default true -/
  agentMarketCheck : Bool
  /-- AGENT_COOLDOWN_MIN, default 0 -/
  cooldownMin : ℤ
  /-- MAX_OPEN_POSITIONS (fallback AGENT_MAX_OPEN), default 0 -/
  maxOpenPositions : ℤ
  /-- MAX_TRADES_PER_SYMBOL (fallback AGENT_MAX_PER_SYMBOL), default 0 -/
  maxTradesPerSymbol : ℤ
  /-- MAX_PER_SIDE_<SYMBOL>, default 0 -/
  maxPerSideSymbol : ℤ
  /-- AGENT_MAX_PER_SIDE, default 0 -/
  agentMaxPerSide : ℤ
  /-- AGENT_BLOCK_SAME_SIDE, default false -/
  blockSameSide : Bool
  /-- EQUITY_FLOOR, default 0.0 -/
  equityFloor : ℚ
  /-- DAILY_LOSS_LIMIT, default 0.0 -/
  dailyLossLimit : ℚ
  /-- MIN_SYMBOL_FLOATING_PNL, default 0.0 -/
  minSymbolFloatingPnl : ℚ
deriving DecidableEq

/-- Broker / time snapshot at the moment `check_pretrade_guards` runs.
Timestamps are in minutes so that `_cooldown_remaining`'s
`total_seconds() / 60.0` is already applied. -/
structure GuardWorld where
  /-- result of `_market_is_open(symbol)` -/
  marketOpen : Bool
  /-- `_last_trade_at` entry for the normalized symbol, minutes -/
  lastTradeAt : Option ℚ
  /-- `_now_utc()`, minutes -/
  nowMin : ℚ
  /-- `mt5.positions_get()` -/
  positionsAll : List MT5Position
  /-- `mt5.positions_get(symbol=symbol)` -/
  positionsSym : List MT5Position
  /-- `mt5.account_info()` -/
  account : Option MT5Account
  /-- requested side argument -/
  side : String
deriving DecidableEq

/-- `_account_equity`: equity if positive, else balance, 0 if no account. -/
def account_equity (acc : Option MT5Account) : ℚ :=
  match acc with
  | none => 0
  | some a => if 0 < a.equity then a.equity else a.balance

/-- `_daily_pnl`: account realized profit plus floating profit of all
open positions. -/
def daily_pnl (w : GuardWorld) : ℚ :=
  (match w.account with | none => 0 | some a => a.profit)
    + (w.positionsAll.map (fun p => p.profit)).sum

/-- `_floating_symbol_pnl`: summed floating profit for the symbol. -/
def floating_symbol_pnl (w : GuardWorld) : ℚ :=
  (w.positionsSym.map (fun p => p.profit)).sum

/-- `_cooldown_remaining(symbol, cooldown_min)`. -/
def cooldown_remaining (cdMin : ℤ) (last : Option ℚ) (now : ℚ) : ℚ :=
  if cdMin ≤ 0 then 0
  else
    match last with
    | none => 0
    | some t =>
        let remain := (cdMin : ℚ) - (now - t)
        if 0 < remain then remain else 0

/-- `want_buy = (side or "").upper() == "LONG"`. -/
def want_buy (side : String) : Bool := strUpper side = "LONG"

/-- `_same_side_block(symbol, side)`. -/
def same_side_block (env : GuardEnv) (w : GuardWorld) : Bool :=
  if !env.blockSameSide then false
  else w.positionsSym.any (fun p => (decide (p.ptype = 0)) == want_buy w.side)

/-- `_exposure_side_count(symbol, side)`. -/
def exposure_side_count (w : GuardWorld) : ℤ :=
  ((w.positionsSym.filter
      (fun p => (decide (p.ptype = 0)) == want_buy w.side)).length : ℤ)

/-- The side cap picked by `_exposure_side_cap`. -/
def exposure_side_cap (env : GuardEnv) : ℤ :=
  if 0 < env.maxPerSideSymbol then env.maxPerSideSymbol else env.agentMaxPerSide

/-- Returned dict of `check_pretrade_guards` (`caps` diagnostics omitted;
the displayed `round(x, 2)` values do not feed any decision). -/
structure GuardDecision where
  ok : Bool
  why : List String
deriving DecidableEq

/-- `check_pretrade_guards(symbol, side)`:
collects all applicable rejection reasons; `ok` iff none. -/
def check_pretrade_guards (env : GuardEnv) (w : GuardWorld) : GuardDecision :=
  let r1 := if env.agentMarketCheck ∧ ¬w.marketOpen then
      ["market_closed_or_stale"] else []
  let cdLeft := cooldown_remaining env.cooldownMin w.lastTradeAt w.nowMin
  let r2 := if 0 < cdLeft then ["cooldown_active"] else []
  let curAll : ℤ := (w.positionsAll.length : ℤ)
  let curSym : ℤ := (w.positionsSym.length : ℤ)
  let r3 := if 0 < env.maxOpenPositions ∧ env.maxOpenPositions ≤ curAll then
      ["max_open_reached"] else []
  let r4 := if 0 < env.maxTradesPerSymbol ∧ env.maxTradesPerSymbol ≤ curSym then
      ["per_symbol_cap_reached"] else []
  let sideOpen := exposure_side_count w
  let sideCap := exposure_side_cap env
  let r5 := if 0 < sideCap ∧ sideCap ≤ sideOpen then
      ["per_side_cap_reached"] else []
  let r6 := if same_side_block env w then ["same_side_blocked"] else []
  let eq := account_equity w.account
  let r7 := if 0 < env.equityFloor ∧ eq ≤ env.equityFloor then
      ["equity_floor_breached"] else []
  let dpnl := daily_pnl w
  let r8 := if 0 < env.dailyLossLimit ∧ dpnl ≤ -|env.dailyLossLimit| then
      ["daily_loss_limit_hit"] else []
  let flt := floating_symbol_pnl w
  let r9 := if env.minSymbolFloatingPnl < 0 ∧ flt ≤ env.minSymbolFloatingPnl then
      ["symbol_floating_under_min"] else []
  let reasons := r1 ++ r2 ++ r3 ++ r4 ++ r5 ++ r6 ++ r7 ++ r8 ++ r9
  { ok := reasons.isEmpty, why := reasons }

/-- `note_trade(symbol)`: record now against the normalized symbol key. -/
def normalizeKey (s : String) : String :=
  String.mk ((strUpper s).toList.map (fun c => if c.isAlphanum then c else '_'))

/-- `note_trade`: the only writer of `_last_trade_at` in the module,
called by the order path after a successful submission. -/
def note_trade (m : List (String × ℚ)) (symbol : String) (now : ℚ) :
    List (String × ℚ) :=
  mapInsertQ (normalizeKey symbol) now m

/-- `check_pretrade_guards` accepts iff no rejection condition fired. -/
theorem check_pretrade_guards_ok_iff (env : GuardEnv) (w : GuardWorld) :
    (check_pretrade_guards env w).ok = true ↔
      (¬(env.agentMarketCheck ∧ ¬w.marketOpen)
        ∧ ¬(0 < cooldown_remaining env.cooldownMin w.lastTradeAt w.nowMin)
        ∧ ¬(0 < env.maxOpenPositions
              ∧ env.maxOpenPositions ≤ (w.positionsAll.length : ℤ))
        ∧ ¬(0 < env.maxTradesPerSymbol
              ∧ env.maxTradesPerSymbol ≤ (w.positionsSym.length : ℤ))
        ∧ ¬(0 < exposure_side_cap env
              ∧ exposure_side_cap env ≤ exposure_side_count w)
        ∧ ¬(same_side_block env w = true)
        ∧ ¬(0 < env.equityFloor ∧ account_equity w.account ≤ env.equityFloor)
        ∧ ¬(0 < env.dailyLossLimit ∧ daily_pnl w ≤ -|env.dailyLossLimit|)
        ∧ ¬(env.minSymbolFloatingPnl < 0
              ∧ floating_symbol_pnl w ≤ env.minSymbolFloatingPnl)) := by
  simp only [check_pretrade_guards, List.isEmpty_iff, List.append_eq_nil,
    ite_singleton_eq_nil]
  tauto

/-! ## `src/guards.py` — sequential `risk_guard`

This variant short-circuits on the first failing check and returns
`{"accepted": bool, "note": str}`.  The formatted note strings are embedded
as an inductive tag (the interpolated numbers are display only). -/

/-- Position dict fields read by `risk_guard` in `src/guards.py`.
`sideStr` is `str(p.get("side") or p.get("type"))`; times are epoch
seconds (or milliseconds when above 10^12, as in the source). -/
structure SPos where
  sideStr : String
  timeMsc : Option ℚ
  time : Option ℚ
  profit : ℚ
deriving DecidableEq

/-- Parsed environment of `risk_guard` (`src/guards.py`). -/
structure SGuardEnv where
  /-- MAX_TRADES_PER_SYMBOL, default 2 -/
  maxTradesPerSymbol : ℤ
  /-- MAX_OPEN_POSITIONS, default 6 -/
  maxOpenPositions : ℤ
  /-- AGENT_BLOCK_SAME_SIDE == "true", default false -/
  blockSameSide : Bool
  /-- SAME_SIDE_COOLDOWN_MIN (fallback AGENT_COOLDOWN_MIN), default 0 -/
  coolMin : ℤ
  /-- MIN_SYMBOL_FLOATING_PNL, default -9999 -/
  minSymbolPnl : ℚ
  /-- EQUITY_FLOOR, default 0.0 -/
  equityFloor : ℚ
  /-- DAILY_LOSS_LIMIT, default 0.0 -/
  dailyLossLimit : ℚ
deriving DecidableEq

/-- Broker snapshot for `risk_guard` (`src/guards.py`).
`account = none` stands for `get_account_info()` returning nothing
(the source then reads equity/balance as 0). -/
structure SGuardWorld where
  positionsAll : List SPos
  positionsSym : List SPos
  account : Option (ℚ × ℚ)
  /-- `datetime.now(UTC)`, epoch seconds -/
  nowSec : ℚ
  side : String
deriving DecidableEq

/-- Note tags for the formatted `note` strings of `risk_guard`. -/
inductive SNote where
  | perSymbolCap
  | globalCap
  | sameSideOpen
  | sameSideCooldown
  | floatingPnl
  | equityFloor
  | dailyLoss
  | ok
deriving DecidableEq

structure SDecision where
  accepted : Bool
  note : SNote
deriving DecidableEq

/-- `is_buy = ps.upper() == "BUY" or ps == "0"` for a position. -/
def spos_is_buy (p : SPos) : Bool :=
  strUpper p.sideStr = "BUY" || p.sideStr = "0"

/-- Python `a or b` on an optional number (0 and `None` are falsy). -/
def pyOrQ (a : Option ℚ) (b : ℚ) : ℚ :=
  match a with
  | none => b
  | some x => if x = 0 then b else x

/-- `p.get("time_msc") or p.get("time") or 0` for one position. -/
def spos_time (p : SPos) : ℚ := pyOrQ p.timeMsc (pyOrQ p.time 0)

/-- Python `max(...)` over a nonempty list (head as seed). -/
def listMax (x : ℚ) (xs : List ℚ) : ℚ := xs.foldl max x

/-- Equity read by `risk_guard`: `float(acct.get("equity", 0))`. -/
def sguard_equity (w : SGuardWorld) : ℚ :=
  match w.account with
  | none => 0
  | some a => a.1

/-- Balance read by `risk_guard`: `float(acct.get("balance", 0))`. -/
def sguard_balance (w : SGuardWorld) : ℚ :=
  match w.account with
  | none => 0
  | some a => a.2

/-- The same-side block/cooldown step of `risk_guard` (`src/guards.py`,
lines 46-72): `some d` means an early rejection return. -/
def same_side_step (env : SGuardEnv) (w : SGuardWorld) : Option SDecision :=
  if env.blockSameSide ∧ (w.side = "LONG" ∨ w.side = "SHORT") then
    match w.positionsSym.filter
        (fun p => spos_is_buy p == decide (w.side = "LONG")) with
    | [] => none
    | p :: rest =>
        if env.coolMin ≤ 0 then some ⟨false, .sameSideOpen⟩
        else
          let newest := listMax (spos_time p) (rest.map spos_time)
          let newest := if 10 ^ 12 < newest then newest / 1000 else newest
          if w.nowSec - newest < (env.coolMin : ℚ) * 60 then
            some ⟨false, .sameSideCooldown⟩
          else none
  else none

/-- `risk_guard(symbol, side, sl_pips)` from `src/guards.py`. -/
def risk_guard (env : SGuardEnv) (w : SGuardWorld) : SDecision :=
  if env.maxTradesPerSymbol ≤ (w.positionsSym.length : ℤ) then
    ⟨false, .perSymbolCap⟩
  else if env.maxOpenPositions ≤ (w.positionsAll.length : ℤ) then
    ⟨false, .globalCap⟩
  else
    match same_side_step env w with
    | some d => d
    | none =>
        let floating := (w.positionsSym.map (fun p => p.profit)).sum
        if floating < env.minSymbolPnl then ⟨false, .floatingPnl⟩
        else if 0 < env.equityFloor ∧ sguard_equity w < env.equityFloor then
          ⟨false, .equityFloor⟩
        else if 0 < env.dailyLossLimit
            ∧ env.dailyLossLimit < sguard_balance w - sguard_equity w then
          ⟨false, .dailyLoss⟩
        else ⟨true, .ok⟩

/-- The same-side step only ever produces rejections. -/
theorem same_side_step_rejects (env : SGuardEnv) (w : SGuardWorld)
    (d : SDecision) (h : same_side_step env w = some d) :
    d.accepted = false := by
  unfold same_side_step at h
  by_cases h1 : env.blockSameSide ∧ (w.side = "LONG" ∨ w.side = "SHORT")
  · rw [if_pos h1] at h
    rcases hf : w.positionsSym.filter
        (fun p => spos_is_buy p == (decide (w.side = "LONG"))) with _ | ⟨p, rest⟩
    · rw [hf] at h
      simp at h
    · rw [hf] at h
      simp only [Option.some.injEq] at h
      split_ifs at h <;> (cases h; rfl)
  · rw [if_neg h1] at h
    simp at h

/-- If `risk_guard` accepts, open counts were strictly below both caps and
equity was not below a configured floor (equality is allowed). -/
theorem risk_guard_accept_bounds (env : SGuardEnv) (w : SGuardWorld)
    (h : (risk_guard env w).accepted = true) :
    (w.positionsSym.length : ℤ) < env.maxTradesPerSymbol
      ∧ (w.positionsAll.length : ℤ) < env.maxOpenPositions
      ∧ (0 < env.equityFloor → env.equityFloor ≤ sguard_equity w) := by
  unfold risk_guard at h
  by_cases h1 : env.maxTradesPerSymbol ≤ (w.positionsSym.length : ℤ)
  · simp [h1] at h
  by_cases h2 : env.maxOpenPositions ≤ (w.positionsAll.length : ℤ)
  · simp [h1, h2] at h
  refine ⟨lt_of_not_le h1, lt_of_not_le h2, ?_⟩
  simp only [if_neg h1, if_neg h2] at h
  rcases hss : same_side_step env w with _ | d
  · rw [hss] at h
    intro hfl
    by_contra hlt
    have he : 0 < env.equityFloor ∧ sguard_equity w < env.equityFloor :=
      ⟨hfl, lt_of_not_le hlt⟩
    by_cases hf : (List.map (fun p => p.profit) w.positionsSym).sum
        < env.minSymbolPnl
    · simp [hf] at h
    · simp [hf, he] at h
  · have hd := same_side_step_rejects env w d hss
    rw [hss] at h
    simp [hd] at h

/-! ## `agentic-trader-drop/app/risk/guards.py` — stateful `risk_guard`

This variant keeps `_LAST_REJECT_MIN : dict[str, int]` and writes the
current minute into it on (most) rejections.  The function is embedded in
state-passing style: it returns the decision together with the new map. -/

/-- Position dict fields read by the drop `risk_guard`:
`pos.get("side") or pos.get("type") or pos.get("type_desc")` plus
`profit`.  Absent keys are `none`; Python treats `""` as falsy too. -/
structure DPos where
  side : Option String
  typ : Option String
  typeDesc : Option String
  profit : ℚ
deriving DecidableEq

/-- Python `a or b` for optional strings (None and "" are falsy). -/
def pyOrS (a : Option String) (b : Option String) : Option String :=
  match a with
  | none => b
  | some s => if s = "" then b else some s

/-- `pos.get("side") or pos.get("type") or pos.get("type_desc")`. -/
def dpos_side_raw (p : DPos) : Option String :=
  pyOrS p.side (pyOrS p.typ p.typeDesc)

/-- `_same_side(pos_side)`: normalize BUY/LONG to "LONG",
SELL/SHORT to "SHORT", anything else to "". -/
def same_side_norm (posSide : Option String) : String :=
  let s := strUpper (posSide.getD "")
  if s = "BUY" ∨ s = "LONG" then "LONG"
  else if s = "SELL" ∨ s = "SHORT" then "SHORT"
  else ""

/-- Parsed environment of the drop `risk_guard`. -/
structure DGuardEnv where
  /-- AGENT_COOLDOWN_MIN, default 10 -/
  cooldownMin : ℤ
  /-- AGENT_MARKET_CHECK, default true -/
  marketCheck : Bool
  /-- parsed SESSIONS: (dowStart, dowEnd, h1, m1, h2, m2) blocks -/
  sessions : List (ℕ × ℕ × ℕ × ℕ × ℕ × ℕ)
  /-- AGENT_MAX_PER_SYMBOL, default 2 -/
  perSymbolCap : ℤ
  /-- AGENT_MAX_OPEN, default 6 -/
  globalCap : ℤ
  /-- AGENT_BLOCK_SAME_SIDE, default true -/
  blockSameSide : Bool
  /-- MIN_SYMBOL_FLOATING_PNL, default -9999.0 -/
  minSymbolPnl : ℚ
  /-- EQUITY_FLOOR, default 0.0 -/
  equityFloor : ℚ
  /-- DAILY_LOSS_LIMIT, default 0.0 -/
  dailyLossLimit : ℤ
deriving DecidableEq

/-- World snapshot for the drop `risk_guard`.  `marketInfo = none` stands
for `is_symbol_trading_now` raising (the source logs and falls through);
`positions = none` stands for `get_positions` raising. -/
structure DGuardWorld where
  nowMin : ℤ
  lastRejectMin : List (String × ℤ)
  marketInfo : Option (Bool × Bool)
  /-- `dt.datetime.now()` day of week (Monday 0) -/
  nowDow : ℕ
  /-- `dt.datetime.now()` seconds since local midnight -/
  nowSec : ℚ
  positions : Option (List DPos × List DPos)
  /-- `get_account_info() or {}` : `none` for an empty/missing account dict,
  `some (equity)` for a dict carrying an equity value -/
  accountEquity : Option ℚ
deriving DecidableEq

/-- `_in_session(now, sessions)`. -/
def in_session (sessions : List (ℕ × ℕ × ℕ × ℕ × ℕ × ℕ))
    (dow : ℕ) (nowSec : ℚ) : Bool :=
  if sessions.isEmpty then true
  else sessions.any fun s =>
    let (ds, de, h1, m1, h2, m2) := s
    decide (ds ≤ dow) && decide (dow ≤ de)
      && decide ((h1 * 3600 + m1 * 60 : ℕ) ≤ nowSec)
      && decide (nowSec ≤ (h2 * 3600 + m2 * 60 : ℕ))

/-- Note tags for the drop `risk_guard` return dicts. -/
inductive DNote where
  | invalidSide
  | cooldown
  | marketClosed
  | outsideSession
  | positionsError
  | perSymbolCap
  | globalCap
  | sameSideOpen
  | floatingPnl
  | equityFloor
  | ok
deriving DecidableEq

structure DDecision where
  accepted : Bool
  note : DNote
deriving DecidableEq

/-- The market/trading-hours gate of the drop `risk_guard`: rejected when
the check is enabled and the symbol reports not tradable or market
closed; an exception in the probe (`none`) falls through. -/
def market_bad (marketCheck : Bool) (info : Option (Bool × Bool)) : Bool :=
  marketCheck &&
    match info with
    | none => false
    | some (tradable, marketOpen) => !(tradable && marketOpen)

/-- The same-side blocking test of the drop `risk_guard`. -/
def same_side_exists (blockSameSide : Bool) (symPositions : List DPos)
    (requestedSide : String) : Bool :=
  blockSameSide && symPositions.any fun p =>
    let ps := same_side_norm (dpos_side_raw p)
    (!(ps == "")) && (ps == requestedSide)

/-- `risk_guard(symbol, side, sl_pips)` from the drop module, in
state-passing style: result plus the updated `_LAST_REJECT_MIN`. -/
def risk_guard_drop (env : DGuardEnv) (w : DGuardWorld)
    (symbol side : String) : DDecision × List (String × ℤ) :=
  let m := w.lastRejectMin
  let requestedSide := strUpper side
  if ¬(requestedSide = "LONG" ∨ requestedSide = "SHORT") then
    (⟨false, .invalidSide⟩, m)
  else
    let lastReject := (m.lookup symbol).getD 0
    if 0 < env.cooldownMin ∧ w.nowMin - lastReject < env.cooldownMin then
      (⟨false, .cooldown⟩, m)
    else
      let reject : DNote → DDecision × List (String × ℤ) :=
        fun n => (⟨false, n⟩, mapInsertI symbol w.nowMin m)
      if market_bad env.marketCheck w.marketInfo then reject .marketClosed
      else if ¬in_session env.sessions w.nowDow w.nowSec then
        reject .outsideSession
      else
        match w.positions with
        | none => reject .positionsError
        | some (symPositions, allPositions) =>
            if env.perSymbolCap ≤ (symPositions.length : ℤ) then
              reject .perSymbolCap
            else if env.globalCap ≤ (allPositions.length : ℤ) then
              reject .globalCap
            else if same_side_exists env.blockSameSide symPositions
                requestedSide then
              reject .sameSideOpen
            else
              let floating := (symPositions.map (fun p => p.profit)).sum
              if floating < env.minSymbolPnl then reject .floatingPnl
              else
                match w.accountEquity with
                | none =>
                    -- empty account dict: both account-level guards skipped
                    (⟨true, .ok⟩, m)
                | some eqVal =>
                    if 0 < env.equityFloor ∧ ¬(eqVal = 0)
                        ∧ eqVal < env.equityFloor then
                      reject .equityFloor
                    else
                      (⟨true, .ok⟩, m)

/-! ## `app/util/sizing.py` — `compute_lot` -/

/-- `mt5.symbol_info` fields used by the sizing module. -/
structure SymbolInfoSz where
  point : ℚ
  tradeTickValue : ℚ
  tradeTickSize : ℚ
  volumeStep : ℚ
deriving DecidableEq

/-- Parsed environment of `compute_lot`. -/
structure SizingEnv where
  /-- LOT_MODE, default "fixed" -/
  lotMode : String
  /-- MT5_DEFAULT_LOTS, default 0.01 (also on parse failure) -/
  defaultLots : ℚ
  /-- LOTS_<SYMBOL>; `none` when absent, empty or unparseable -/
  envLots : Option ℚ
  /-- RISK_PCT, default 0.01 -/
  riskPct : ℚ
  /-- MIN_LOT, default 0.01 -/
  minLot : ℚ
  /-- MAX_LOT, default 1.00 -/
  maxLot : ℚ
  /-- XAU_PIP_ABS, default 0.1 -/
  xauPipAbs : ℚ
deriving DecidableEq

/-- Broker snapshot for `compute_lot`. -/
structure SizingWorld where
  symbol : String
  info : Option SymbolInfoSz
  /-- `mt5.account_info()`; the balance when available -/
  accountBalance : Option ℚ
deriving DecidableEq

/-- `sym.startswith("XAU") or "GOLD" in sym` on the uppercased symbol. -/
def is_xau_symbol (symbol : String) : Bool :=
  let s := (strUpper symbol).toList
  ("XAU".toList.isPrefixOf s) || hasSub "GOLD".toList s

/-- `_pip_to_price(symbol, pips)`. -/
def pip_to_price (xauPipAbs : ℚ) (symbol : String)
    (info : Option SymbolInfoSz) (pips : ℚ) : ℚ :=
  match info with
  | none => pips * (1/10000) * 10
  | some si =>
      if is_xau_symbol symbol then pips * xauPipAbs
      else pips * si.point * 10

/-- `_risk_lots_from_sl(symbol, sl_price_distance, risk_amount)`. -/
def risk_lots_from_sl (info : Option SymbolInfoSz)
    (slDist riskAmount : ℚ) : Option ℚ :=
  match info with
  | none => none
  | some si =>
      let tv := si.tradeTickValue
      let ts := if si.tradeTickSize = 0 then si.point else si.tradeTickSize
      if ts = 0 ∨ tv = 0 then none
      else
        let moneyPerUnit := tv / ts
        let riskPerLot := slDist * moneyPerUnit
        if riskPerLot ≤ 0 then none
        else some (riskAmount / riskPerLot)

/-- The fixed-policy fallback value: per-symbol override else default. -/
def fixed_lots (env : SizingEnv) (defaultLots : ℚ) : ℚ :=
  env.envLots.getD defaultLots

/-- `compute_lot(symbol, sl_pips, mode=..., default_lots=...)`. -/
def compute_lot (env : SizingEnv) (w : SizingWorld) (slPips : Option ℚ)
    (modeArg : Option String) (defaultLotsArg : Option ℚ) : ℚ :=
  let mode := strLower (modeArg.getD env.lotMode)
  let defaultLots := defaultLotsArg.getD env.defaultLots
  if mode = "fixed" then fixed_lots env defaultLots
  else
    match slPips with
    | none => fixed_lots env defaultLots
    | some pips =>
        match w.accountBalance with
        | none => fixed_lots env defaultLots
        | some balance =>
            let riskAmount := max 0 (balance * env.riskPct)
            let slDist := pip_to_price env.xauPipAbs w.symbol w.info pips
            match risk_lots_from_sl w.info slDist riskAmount with
            | none => fixed_lots env defaultLots
            | some lots =>
                let maxLot := match env.envLots with
                  | none => env.maxLot
                  | some v => min env.maxLot v
                let lots := max env.minLot (min maxLot lots)
                match w.info with
                | some si =>
                    if si.volumeStep = 0 then lots
                    else
                      let step := si.volumeStep
                      let lots2 := (pyTrunc (lots / step) : ℚ) * step
                      max lots2 step
                | none => lots

/-! ## `app/exec/executor_mt5.py` — pip/tick conversions and stop distance -/

/-- `mt5.symbol_info` fields used by `executor_mt5.py`:
`trade_tick_size` may be absent (`getattr(..., None)`). -/
structure SymInfoX where
  digits : ℤ
  point : ℚ
  tradeTickSize : Option ℚ
  tradeStopsLevel : ℚ
deriving DecidableEq

/-- `_digits`: 5 when the symbol info is unavailable. -/
def x_digits (info : Option SymInfoX) : ℤ :=
  match info with | none => 5 | some si => si.digits

/-- `_point`: 0.00001 when the symbol info is unavailable. -/
def x_point (info : Option SymInfoX) : ℚ :=
  match info with | none => 1/100000 | some si => si.point

/-- `_tick_size`: `trade_tick_size`, falling back to `point`, falling back
to 0.00001 when the whole chain is zero. -/
def x_tick_size (info : Option SymInfoX) : ℚ :=
  let ts0 : Option ℚ := match info with
    | none => none
    | some si => si.tradeTickSize
  let ts : ℚ := match ts0 with
    | none => x_point info
    | some t => if t ≤ 0 then x_point info else t
  if ts = 0 then 1/100000 else ts

/-- `_stop_level_points`: broker min SL/TP distance in points (0 if none). -/
def x_stop_level_points (info : Option SymInfoX) : ℚ :=
  match info with | none => 0 | some si => si.tradeStopsLevel

/-- `_pip_size` of `executor_mt5.py`: 0.1 for XAU, 0.0001 for 5+ digits,
else 10 × point. -/
def x_pip_size (symbol : String) (info : Option SymInfoX) : ℚ :=
  if hasSub "XAU".toList (strUpper symbol).toList then 1/10
  else if 5 ≤ x_digits info then 1/10000
  else x_point info * 10

/-- `_price_from_pips(symbol, entry, pips, side, is_sl)`. -/
def price_from_pips (symbol : String) (info : Option SymInfoX)
    (entry pips : ℚ) (side : String) (isSl : Bool) : ℚ :=
  let pip := x_pip_size symbol info
  let delta := pip * pips
  if side = "LONG" then (if isSl then entry - delta else entry + delta)
  else (if isSl then entry + delta else entry - delta)

/-- `_round_to_tick(symbol, price)`: round to the nearest trade tick. -/
def round_to_tick (info : Option SymInfoX) (price : ℚ) : ℚ :=
  let ts := x_tick_size info
  if ts ≤ 0 then price else (roundHalfEven (price / ts) : ℚ) * ts

/-- `_ensure_min_stop_distance(symbol, side, entry, sl, tp)`. -/
def ensure_min_stop_distance (info : Option SymInfoX) (side : String)
    (entry sl tp : ℚ) : ℚ × ℚ :=
  let pts := x_stop_level_points info
  if pts ≤ 0 then (sl, tp)
  else
    let minDist := pts * x_point info
    let sl' :=
      if side = "LONG" then
        (if entry - sl < minDist then entry - minDist else sl)
      else
        (if sl - entry < minDist then entry + minDist else sl)
    let tp' :=
      if side = "LONG" then
        (if tp - entry < minDist then entry + minDist else tp)
      else
        (if entry - tp < minDist then entry - minDist else tp)
    (round_to_tick info sl', round_to_tick info tp')

/-- `compute_sl_tp_prices(symbol, side, entry, sl_pips, tp_pips)`:
the `(sl, tp)` pair of the returned dict (other entries echo inputs);
`none` stands for the `ValueError` on an invalid side. -/
def compute_sl_tp_prices (symbol : String) (info : Option SymInfoX)
    (side : String) (entry slPips tpPips : ℚ) : Option (ℚ × ℚ) :=
  let side := strUpper side
  if ¬(side = "LONG" ∨ side = "SHORT") then none
  else
    let rawSl := price_from_pips symbol info entry slPips side true
    let rawTp := price_from_pips symbol info entry tpPips side false
    let sl := round_to_tick info rawSl
    let tp := round_to_tick info rawTp
    some (ensure_min_stop_distance info side entry sl tp)

/-! ## `app/util/pricing.py` — tick size, pip size, floor rounding -/

/-- Symbol info fields used by `pricing.py`. -/
structure SymInfoP where
  digits : ℤ
  point : ℚ
  tradeTickSize : ℚ
deriving DecidableEq

/-- `tick_size(symbol)` of `pricing.py`. -/
def p_tick_size (info : Option SymInfoP) : ℚ :=
  match info with
  | none => 1/100000
  | some i =>
      if 0 < i.tradeTickSize then i.tradeTickSize
      else if 0 < i.point then i.point else 1/100000

/-- `pip_size(symbol)` of `pricing.py` (strategy pip). -/
def p_pip_size (symbol : String) (info : Option SymInfoP) : ℚ :=
  if hasSub "XAU".toList (strUpper symbol).toList then 1/10
  else
    let digits : ℤ := match info with
      | none => 5
      | some i => if i.digits = 0 then 5 else i.digits
    let pt : ℚ := match info with
      | none => (10 : ℚ) ^ (-digits)
      | some i => if i.point = 0 then (10 : ℚ) ^ (-digits) else i.point
    if digits = 3 ∨ digits = 5 then 10 * pt else pt

/-- `price_delta_from_pips(symbol, pips)`. -/
def price_delta_from_pips (symbol : String) (info : Option SymInfoP)
    (pips : ℚ) : ℚ :=
  pips * p_pip_size symbol info

/-- `round_price_to_tick(symbol, price)`: floor to the tick grid, then
Python `round(..., 10)`. -/
def round_price_to_tick (info : Option SymInfoP) (price : ℚ) : ℚ :=
  let ts := p_tick_size info
  if ts ≤ 0 then price
  else pyRound 10 ((⌊price / ts⌋ : ℚ) * ts)

/-! ## `app/brokers/mt5_client.py` — `place_order` submission protocol

The retry / widen / naked-fallback / attach protocol.  Broker responses
are embedded as scripts: one `Option Resp` per `order_send` call, `none`
standing for an exception or missing response (both sleep and continue).
Retcodes: 10009 done, 10016 busy, 10004 invalid stops. -/

/-- An `order_send` response (`res._asdict()` fields that are read). -/
structure Resp where
  retcode : ℤ
  comment : String
  order : ℤ
deriving DecidableEq

/-- `_comment_is_invalid_stops(comment)`. -/
def comment_is_invalid_stops (comment : String) : Bool :=
  if comment = "" then false
  else
    let c := (strLower comment).toList
    hasSub "invalid stops".toList c || hasSub "invalid sl".toList c
      || hasSub "invalid tp".toList c

inductive OrderSide where
  | buy
  | sell
deriving DecidableEq

/-- `_get_side(request)`: SELL/SHORT anywhere in the string means sell. -/
def get_side (sideRaw : String) : OrderSide :=
  let s := (strUpper sideRaw).toList
  if hasSub "SELL".toList s || hasSub "SHORT".toList s then .sell else .buy

/-- `mt5.symbol_info` fields used by `mt5_client.py`. -/
structure ClientInfo where
  point : ℚ
  tradeStopsLevel : ℤ
  volumeMin : ℚ
  volumeMax : ℚ
  volumeStep : ℚ
deriving DecidableEq

/-- `_adjust_volume(symbol, vol)`. -/
def adjust_volume (info : Option ClientInfo) (vol : ℚ) : ℚ :=
  match info with
  | none => pyRound 2 vol
  | some si =>
      let v := max si.volumeMin (min vol si.volumeMax)
      let steps := roundHalfEven (v / si.volumeStep)
      pyRound 2 ((steps : ℚ) * si.volumeStep)

/-- `_ensure_market_price(symbol, side, current)`. -/
def ensure_market_price (tick : Option (ℚ × ℚ)) (side : OrderSide)
    (current : Option ℚ) : ℚ :=
  match tick with
  | none => current.getD 0
  | some (bid, ask) => match side with | .buy => ask | .sell => bid

/-- `"NAS100" | "US30" | "GER40" | "SPX500" in symbol.upper()`. -/
def is_index_symbol (s : String) : Bool :=
  ["NAS100", "US30", "GER40", "SPX500"].any
    (fun n => hasSub n.toList (strUpper s).toList)

/-- `_compute_sl_tp(symbol, side, price, sl_pips, tp_pips)`:
pip multiplier is 1.0 in index-point mode for index symbols, else the
symbol point (0.01 when the info is unavailable). -/
def compute_sl_tp_client (pipMode : String) (isIndex : Bool)
    (info : Option ClientInfo) (side : OrderSide)
    (price slPips tpPips : ℚ) : ℚ × ℚ :=
  let point : ℚ := match info with | none => 1/100 | some si => si.point
  let mult := if pipMode = "index_point" ∧ isIndex then 1 else point
  match side with
  | .buy => (price - slPips * mult, price + tpPips * mult)
  | .sell => (price + slPips * mult, price - tpPips * mult)

/-- `_ensure_min_stops(symbol, side, price, sl, tp)`:
`trade_stops_level` in points (env MT5_MIN_STOP_POINTS when ≤ 0). -/
def ensure_min_stops_client (info : Option ClientInfo)
    (envMinStopPoints : ℤ) (side : OrderSide) (price sl tp : ℚ) : ℚ × ℚ :=
  match info with
  | none => (sl, tp)
  | some si =>
      let minStop := if si.tradeStopsLevel ≤ 0 then envMinStopPoints
        else si.tradeStopsLevel
      let dist := (minStop : ℚ) * si.point
      match side with
      | .buy =>
          ((if price - sl < dist then price - dist else sl),
           (if tp - price < dist then price + dist else tp))
      | .sell =>
          ((if sl - price < dist then price + dist else sl),
           (if price - tp < dist then price - dist else tp))

/-- `_attach_sltp` retry loop: true iff the SL/TP modification went
through.  Busy / other rejections / no response retry; invalid stops
aborts the retries immediately. -/
def attach_sltp : List (Option Resp) → Bool
  | [] => false
  | r :: rest =>
      match r with
      | none => attach_sltp rest
      | some resp =>
          if resp.retcode = 10009 then true
          else if resp.retcode = 10016 then attach_sltp rest
          else if resp.retcode = 10004
              ∨ comment_is_invalid_stops resp.comment then false
          else attach_sltp rest

/-- Mutable state of the protected submission loop: the pip distances and
absolute stops of `trade_req`, plus `last_result`. -/
structure ProtSt where
  slPips : ℚ
  tpPips : ℚ
  sl : ℚ
  tp : ℚ
  lastResult : Option Resp
deriving DecidableEq

/-- The widen step of `place_order` on an invalid-stops rejection:
multiply both pip distances by MT5_STOP_WIDEN_MULT and recompute the
absolute stops from the unchanged reference price. -/
def widen_step (widenMult : ℚ) (pipMode : String) (isIndex : Bool)
    (info : Option ClientInfo) (envMinStopPoints : ℤ) (side : OrderSide)
    (price : ℚ) (st : ProtSt) : ProtSt :=
  let slPips := st.slPips * widenMult
  let tpPips := st.tpPips * widenMult
  let (sl, tp) := compute_sl_tp_client pipMode isIndex info side price
    slPips tpPips
  let (sl2, tp2) := ensure_min_stops_client info envMinStopPoints side price
    sl tp
  ⟨slPips, tpPips, sl2, tp2, st.lastResult⟩

/-- The stop-protected submission loop of `place_order`:
`Sum.inl resp` is a successful fill, `Sum.inr st` exhausts the budget. -/
def protected_attempts (widenMult : ℚ) (pipMode : String) (isIndex : Bool)
    (info : Option ClientInfo) (envMinStopPoints : ℤ) (side : OrderSide)
    (price : ℚ) : List (Option Resp) → ProtSt → Sum Resp ProtSt
  | [], st => .inr st
  | r :: rest, st =>
      match r with
      | none => protected_attempts widenMult pipMode isIndex info
          envMinStopPoints side price rest st
      | some resp =>
          if resp.retcode = 10009 then .inl resp
          else if resp.retcode = 10016 then
            protected_attempts widenMult pipMode isIndex info
              envMinStopPoints side price rest st
          else if resp.retcode = 10004
              ∨ comment_is_invalid_stops resp.comment then
            protected_attempts widenMult pipMode isIndex info
              envMinStopPoints side price rest
              (widen_step widenMult pipMode isIndex info envMinStopPoints
                side price st)
          else
            protected_attempts widenMult pipMode isIndex info
              envMinStopPoints side price rest
              { st with lastResult := some resp }

/-- The naked submission loop: the `order` field of the first successful
response (the loop breaks there), `none` if none succeeds. -/
def naked_attempts : List (Option Resp) → Option ℤ
  | [] => none
  | r :: rest =>
      match r with
      | none => naked_attempts rest
      | some resp =>
          if resp.retcode = 10009 then some resp.order
          else naked_attempts rest

/-- The distinct return dict shapes of `place_order`. -/
inductive POResult where
  /-- `{"ok": False, "error": "missing_symbol"}` -/
  | missingSymbol
  /-- `{"ok": True, "comment": "dry_run"}` -/
  | dryRun
  /-- `{"ok": True, "comment": "simulated", ...}` -/
  | testMode
  /-- `{"ok": False, "error": "no_symbol_info"}` -/
  | noSymbolInfo
  /-- `{"ok": True, "retcode": rc, "comment": cm, ...}` protected fill -/
  | filledProtected (retcode : ℤ) (comment : String)
  /-- `{"ok": False, "result": last_result or ...}` -/
  | rejected (lastResult : Option Resp)
  /-- `{"ok": True, "ticket": t, "warning": "sltp_attach_failed", ...}` -/
  | filledAttachFailed (ticket : ℤ)
  /-- `{"ok": True, "ticket": t, "comment": "attached_sltp", ...}` -/
  | filledAttached (ticket : ℤ)
deriving DecidableEq

/-- Parsed environment of `place_order` (`mt5_client.py`). -/
structure ClientEnv where
  dryRun : Bool
  testMode : Bool
  /-- MT5_ATTACH_RETRIES, default 5 -/
  retries : ℕ
  /-- MT5_STOP_WIDEN_MULT, default 2.0 -/
  widenMult : ℚ
  /-- MT5_MIN_STOP_POINTS, default 300 -/
  minStopPoints : ℤ
  /-- INDICES_PIP_MODE lowered, default "mt5_point" -/
  indicesPipMode : String
  /-- LOTS_<symbol> / MT5_DEFAULT_LOTS resolved -/
  lots : ℚ
deriving DecidableEq

/-- Request and broker snapshot of one `place_order` call, with the
response scripts of its three `order_send` loops. -/
structure ClientWorld where
  symbol : Option String
  sideRaw : String
  /-- `request.get("sl_pips", 100.0)` -/
  slPips : ℚ
  /-- `request.get("tp_pips", 200.0)` -/
  tpPips : ℚ
  reqPrice : Option ℚ
  /-- `(bid, ask)` -/
  tick : Option (ℚ × ℚ)
  info : Option ClientInfo
  protScript : List (Option Resp)
  nakedScript : List (Option Resp)
  attachScript : List (Option Resp)
deriving DecidableEq

/-- `place_order(request)` of `mt5_client.py`.  Fill-mode detection and
the request payload fields (deviation, magic, comment) only shape the
outgoing dict, not the control flow, and are omitted. -/
def place_order (env : ClientEnv) (w : ClientWorld) : POResult :=
  match w.symbol with
  | none => .missingSymbol
  | some symbol =>
      let side := get_side w.sideRaw
      let _volume := adjust_volume w.info env.lots
      if env.dryRun then .dryRun
      else if env.testMode then .testMode
      else
        let price := ensure_market_price w.tick side w.reqPrice
        let isIndex := is_index_symbol symbol
        let stp := compute_sl_tp_client env.indicesPipMode isIndex
          w.info side price w.slPips w.tpPips
        let stp2 := ensure_min_stops_client w.info env.minStopPoints
          side price stp.1 stp.2
        match w.info with
        | none => .noSymbolInfo
        | some _ =>
            let st0 : ProtSt := ⟨w.slPips, w.tpPips, stp2.1, stp2.2, none⟩
            match protected_attempts env.widenMult env.indicesPipMode
                isIndex w.info env.minStopPoints side price
                (w.protScript.take env.retries) st0 with
            | .inl resp => .filledProtected resp.retcode resp.comment
            | .inr stFinal =>
                match naked_attempts (w.nakedScript.take env.retries) with
                | none => .rejected stFinal.lastResult
                | some ticket =>
                    if ticket = 0 then .rejected stFinal.lastResult
                    else if attach_sltp (w.attachScript.take env.retries)
                    then .filledAttached ticket
                    else .filledAttachFailed ticket

/-! ## `app/monitor/trailing.py` — per-position trailing decision

The per-position body of `trail_positions` (lines 257-326): profit and
start gates, optional bias alignment, candidate stop computation and the
no-improvement / minimum-step gates.  The symbol-level trail `distance`
(ATR × multiplier or pips) and the two pip sizes are inputs. -/

/-- Effective per-position trailing parameters. -/
structure TrailParams where
  /-- TRAIL_ONLY_IN_PROFIT, default true -/
  onlyProfit : Bool
  /-- eff_start_pips -/
  startPips : ℚ
  /-- eff_lock_pips -/
  lockPips : ℚ
  /-- eff_step_pips -/
  stepPips : ℚ
  /-- eff_req_bias -/
  reqBias : Bool
  /-- symbol trail distance (ATR × mult, or pips converted to price) -/
  distance : ℚ
  /-- `_pip_size(symbol)` of `trailing.py` -/
  pipSize : ℚ
  /-- `pip_size(symbol)` of `pricing.py` (used by lock distance) -/
  pricingPipSize : ℚ
  /-- `decide_signal(...)` side; `none` stands for an exception -/
  sigSide : Option String
deriving DecidableEq

/-- Position dict fields read per position. -/
structure TrailPos where
  /-- `pos.get("side") or pos.get("type_desc") or ""` (pre-upper) -/
  side : String
  /-- `price_open` -/
  entry : ℚ
  /-- `price_current` (tick fallback already resolved) -/
  cur : ℚ
  /-- `pos.get("sl", 0.0) or 0.0` -/
  sl : ℚ
deriving DecidableEq

inductive TrailSkip where
  | notInProfit
  | profitBelowStart
  | biasError
  | biasNotAligned
  | noImprovement
  | stepTooSmall
deriving DecidableEq

inductive TrailDecision where
  | skip (reason : TrailSkip)
  | modify (target : ℚ)
deriving DecidableEq

/-- `_pip_distance(symbol, p1, p2)`. -/
def pip_distance (pipSz : ℚ) (p1 p2 : ℚ) : ℚ :=
  if pipSz = 0 then 0 else |p1 - p2| / pipSz

/-- `side in ("BUY", "LONG")`. -/
def trail_is_long (side : String) : Bool := side = "BUY" || side = "LONG"

/-- Candidate stop: `cur ∓ distance`, floored (long) / capped (short) at
the profit-lock level when trailing only in profit. -/
def trail_target (P : TrailParams) (pos : TrailPos) : ℚ :=
  let side := strUpper pos.side
  if trail_is_long side then
    let t := pos.cur - P.distance
    if P.onlyProfit then max t (pos.entry + P.lockPips * P.pricingPipSize)
    else t
  else
    let t := pos.cur + P.distance
    if P.onlyProfit then min t (pos.entry - P.lockPips * P.pricingPipSize)
    else t

/-- `in_profit`: `(cur > entry) if side in ("BUY", "LONG") else (cur < entry)`. -/
def trail_in_profit (pos : TrailPos) : Prop :=
  if trail_is_long (strUpper pos.side) then pos.entry < pos.cur
  else pos.cur < pos.entry

instance (pos : TrailPos) : Decidable (trail_in_profit pos) := by
  unfold trail_in_profit
  split_ifs <;> infer_instance

/-- `prof_pips = _pip_distance(symbol, cur, entry)`. -/
def trail_prof_pips (P : TrailParams) (pos : TrailPos) : ℚ :=
  pip_distance P.pipSize pos.cur pos.entry

/-- The optional bias-alignment gate: `some reason` means skip. -/
def trail_bias_skip (P : TrailParams) (side : String) : Option TrailSkip :=
  if P.reqBias then
    match P.sigSide with
    | none => some .biasError
    | some raw =>
        let newSide := strUpper raw
        let wantLong := trail_is_long side
        if (wantLong ∧ newSide = "LONG")
            ∨ (¬wantLong ∧ newSide = "SHORT") then none
        else some .biasNotAligned
  else none

/-- The per-position decision of `trail_positions`. -/
def trail_decision (P : TrailParams) (pos : TrailPos) : TrailDecision :=
  let side := strUpper pos.side
  if P.onlyProfit ∧ ¬trail_in_profit pos then .skip .notInProfit
  else if P.onlyProfit ∧ trail_in_profit pos
      ∧ trail_prof_pips P pos < P.startPips then
    .skip .profitBelowStart
  else
    match trail_bias_skip P side with
    | some r => .skip r
    | none =>
        let target := trail_target P pos
        let currentSl := pos.sl
        if trail_is_long side then
          if ¬(currentSl = 0) ∧ target ≤ currentSl then .skip .noImprovement
          else if ¬(currentSl = 0)
              ∧ pip_distance P.pipSize target currentSl < P.stepPips then
            .skip .stepTooSmall
          else .modify target
        else
          if ¬(currentSl = 0) ∧ currentSl ≤ target then .skip .noImprovement
          else if ¬(currentSl = 0)
              ∧ pip_distance P.pipSize target currentSl < P.stepPips then
            .skip .stepTooSmall
          else .modify target

/-! ## Claim C9 -/

/-- C9: whenever a daily loss limit > 0 is configured and the
realized-plus-floating daily PnL is at or below the negative of that
limit, `check_pretrade_guards` rejects — for any instrument snapshot and
side — with the `daily_loss_limit_hit` reason in the reasons list. -/
theorem C9_daily_loss_rejects (env : GuardEnv) (w : GuardWorld)
    (hlim : 0 < env.dailyLossLimit)
    (hpnl : daily_pnl w ≤ -env.dailyLossLimit) :
    (check_pretrade_guards env w).ok = false
      ∧ "daily_loss_limit_hit" ∈ (check_pretrade_guards env w).why := by
  have hcond : 0 < env.dailyLossLimit ∧ daily_pnl w ≤ -|env.dailyLossLimit| :=
    ⟨hlim, by rwa [abs_of_pos hlim]⟩
  constructor
  · rcases hok : (check_pretrade_guards env w).ok with _ | _
    · rfl
    · have := (check_pretrade_guards_ok_iff env w).mp hok
      exact absurd hcond this.2.2.2.2.2.2.2.1
  · simp only [check_pretrade_guards, List.mem_append]
    rw [if_pos hcond]
    simp

def envC9 : GuardEnv :=
  { agentMarketCheck := false, cooldownMin := 0, maxOpenPositions := 0,
    maxTradesPerSymbol := 0, maxPerSideSymbol := 0, agentMaxPerSide := 0,
    blockSameSide := false, equityFloor := 0, dailyLossLimit := 100,
    minSymbolFloatingPnl := 0 }

def wC9 : GuardWorld :=
  { marketOpen := true, lastTradeAt := none, nowMin := 0,
    positionsAll := [⟨0, -50⟩], positionsSym := [],
    account := some ⟨1000, 1000, -100⟩, side := "LONG" }

theorem C9_witness :
    (check_pretrade_guards envC9 wC9).ok = false
      ∧ "daily_loss_limit_hit" ∈ (check_pretrade_guards envC9 wC9).why :=
  C9_daily_loss_rejects envC9 wC9 (by norm_num [envC9])
    (by norm_num [daily_pnl, envC9, wC9])

/-! ## Claim C6 -/

/-- C6: each invocation of the widen step multiplies both the stop and
the target pip distance by the widen multiplier, so with a multiplier > 1
both distances strictly increase relative to the previous attempt,
whatever the recomputed absolute prices are. -/
theorem C6_widen_strictly_increases (widenMult : ℚ) (pipMode : String)
    (isIndex : Bool) (info : Option ClientInfo) (envMinStopPoints : ℤ)
    (side : OrderSide) (price : ℚ) (st : ProtSt)
    (hm : 1 < widenMult) (hsl : 0 < st.slPips) (htp : 0 < st.tpPips) :
    st.slPips < (widen_step widenMult pipMode isIndex info envMinStopPoints
        side price st).slPips
      ∧ st.tpPips < (widen_step widenMult pipMode isIndex info
        envMinStopPoints side price st).tpPips := by
  have h1 : (widen_step widenMult pipMode isIndex info envMinStopPoints
      side price st).slPips = st.slPips * widenMult := rfl
  have h2 : (widen_step widenMult pipMode isIndex info envMinStopPoints
      side price st).tpPips = st.tpPips * widenMult := rfl
  rw [h1, h2]
  exact ⟨(lt_mul_iff_one_lt_right hsl).mpr hm,
    (lt_mul_iff_one_lt_right htp).mpr hm⟩

theorem C6_witness :
    (100 : ℚ) < (widen_step 2 "mt5_point" false none 300 .buy 1
        ⟨100, 200, 0, 0, none⟩).slPips
      ∧ (200 : ℚ) < (widen_step 2 "mt5_point" false none 300 .buy 1
        ⟨100, 200, 0, 0, none⟩).tpPips :=
  C6_widen_strictly_increases 2 "mt5_point" false none 300 .buy 1
    ⟨100, 200, 0, 0, none⟩ (by norm_num) (by norm_num) (by norm_num)

/-! ## Claims C5 and C10 -/

theorem strUpper_eval_BUY : strUpper "BUY" = "BUY" := by decide

/-- C5: for a position that has a current stop (`sl ≠ 0`, the broker's
encoding of an existing stop), on either side, the trailing controller
submits a stop modification only when the candidate is strictly tighter
than the current stop (higher for a long, lower for a short) and the
improvement is at least the minimum step distance in pips; in particular
it never submits a modification less favorable than the current stop. -/
theorem C5_monotonic_trailing (P : TrailParams) (pos : TrailPos)
    (target : ℚ) (hsl : ¬(pos.sl = 0))
    (h : trail_decision P pos = .modify target) :
    (trail_is_long (strUpper pos.side) = true →
        pos.sl < target
          ∧ P.stepPips ≤ pip_distance P.pipSize target pos.sl)
      ∧ (trail_is_long (strUpper pos.side) = false →
        target < pos.sl
          ∧ P.stepPips ≤ pip_distance P.pipSize target pos.sl) := by
  have hmain : target = trail_target P pos
      ∧ (trail_is_long (strUpper pos.side) = true →
          ¬(trail_target P pos ≤ pos.sl)
            ∧ ¬(pip_distance P.pipSize (trail_target P pos) pos.sl
                < P.stepPips))
      ∧ (¬(trail_is_long (strUpper pos.side) = true) →
          ¬(pos.sl ≤ trail_target P pos)
            ∧ ¬(pip_distance P.pipSize (trail_target P pos) pos.sl
                < P.stepPips)) := by
    unfold trail_decision at h
    by_cases hg1 : P.onlyProfit = true ∧ ¬trail_in_profit pos
    · simp [hg1] at h
    by_cases hg2 : P.onlyProfit = true ∧ trail_in_profit pos
        ∧ trail_prof_pips P pos < P.startPips
    · simp [hg1, hg2] at h
    rcases hbs : trail_bias_skip P (strUpper pos.side) with _ | r
    swap
    · simp [hg1, hg2, hbs] at h
    by_cases hlong : trail_is_long (strUpper pos.side) = true
    · by_cases hc1 : ¬pos.sl = 0 ∧ trail_target P pos ≤ pos.sl
      · simp [hg1, hg2, hbs, hlong, hc1] at h
      by_cases hc2 : ¬pos.sl = 0
          ∧ pip_distance P.pipSize (trail_target P pos) pos.sl < P.stepPips
      · simp [hg1, hg2, hbs, hlong, hc1, hc2] at h
        split_ifs at h
      have ht : trail_target P pos = target := by
        simpa [hg1, hg2, hbs, hlong, hc1, hc2] using h
      exact ⟨ht.symm,
        fun _ => ⟨fun hle => hc1 ⟨hsl, hle⟩, fun hlt => hc2 ⟨hsl, hlt⟩⟩,
        fun hc => absurd hlong hc⟩
    · by_cases hc1 : ¬pos.sl = 0 ∧ pos.sl ≤ trail_target P pos
      · simp [hg1, hg2, hbs, hlong, hc1] at h
      by_cases hc2 : ¬pos.sl = 0
          ∧ pip_distance P.pipSize (trail_target P pos) pos.sl < P.stepPips
      · simp [hg1, hg2, hbs, hlong, hc1, hc2] at h
        split_ifs at h
      have ht : trail_target P pos = target := by
        simpa [hg1, hg2, hbs, hlong, hc1, hc2] using h
      exact ⟨ht.symm, fun hc => absurd hc hlong,
        fun _ => ⟨fun hle => hc1 ⟨hsl, hle⟩, fun hlt => hc2 ⟨hsl, hlt⟩⟩⟩
  obtain ⟨ht, hL, hS⟩ := hmain
  subst ht
  constructor
  · intro hl
    exact ⟨lt_of_not_le (hL hl).1, le_of_not_lt (hL hl).2⟩
  · intro hf
    have hnl : ¬(trail_is_long (strUpper pos.side) = true) := by
      simp [hf]
    exact ⟨lt_of_not_le (hS hnl).1, le_of_not_lt (hS hnl).2⟩

def PC5 : TrailParams :=
  { onlyProfit := true, startPips := 10, lockPips := 5, stepPips := 5,
    reqBias := false, distance := 1/500, pipSize := 1/10000,
    pricingPipSize := 1/10000, sigSide := none }

def posC5 : TrailPos :=
  { side := "BUY", entry := 1, cur := 101/100, sl := 1001/1000 }

theorem C5_witness :
    (trail_is_long (strUpper posC5.side) = true →
        posC5.sl < 126/125
          ∧ PC5.stepPips ≤ pip_distance PC5.pipSize (126/125) posC5.sl)
      ∧ (trail_is_long (strUpper posC5.side) = false →
        (126/125 : ℚ) < posC5.sl
          ∧ PC5.stepPips ≤ pip_distance PC5.pipSize (126/125) posC5.sl) := by
  refine C5_monotonic_trailing PC5 posC5 (126/125) (by norm_num [posC5]) ?_
  norm_num [trail_decision, trail_in_profit, trail_prof_pips,
    trail_bias_skip, trail_target, trail_is_long, pip_distance, PC5, posC5,
    strUpper_eval_BUY, abs_of_pos, max_def]

/-- C10: for a position whose stop-loss field is zero/absent, both the
no-improvement gate and the minimum-step gate are bypassed: once the
profit gates and the bias gate pass, a stop modification is always
submitted, with the computed candidate stop, however small the change. -/
theorem C10_zero_sl_always_modifies (P : TrailParams) (pos : TrailPos)
    (hsl : pos.sl = 0)
    (hp1 : P.onlyProfit = true → trail_in_profit pos)
    (hp2 : P.onlyProfit = true → P.startPips ≤ trail_prof_pips P pos)
    (hb : trail_bias_skip P (strUpper pos.side) = none) :
    trail_decision P pos = .modify (trail_target P pos) := by
  unfold trail_decision
  have hg1 : ¬(P.onlyProfit = true ∧ ¬trail_in_profit pos) := by
    rintro ⟨hop, hnp⟩
    exact hnp (hp1 hop)
  have hg2 : ¬(P.onlyProfit = true ∧ trail_in_profit pos
      ∧ trail_prof_pips P pos < P.startPips) := by
    rintro ⟨hop, _, hlt⟩
    exact absurd (hp2 hop) (not_le.mpr hlt)
  simp only [hsl, hg1, hg2, hb, if_false, not_true, false_and, and_false,
    not_false_iff, true_and]
  split_ifs <;> simp_all

def posC10 : TrailPos :=
  { side := "BUY", entry := 1, cur := 101/100, sl := 0 }

theorem C10_witness :
    trail_decision PC5 posC10 = .modify (trail_target PC5 posC10) := by
  refine C10_zero_sl_always_modifies PC5 posC10 (by norm_num [posC10])
    ?_ ?_ ?_
  · intro _
    norm_num [trail_in_profit, trail_is_long, posC10, strUpper_eval_BUY]
  · intro _
    norm_num [trail_prof_pips, pip_distance, PC5, posC10, abs_of_pos]
  · norm_num [trail_bias_skip, PC5]

/-! ## Claim C1 -/

/-- C1 (amended): if `check_pretrade_guards` accepts then any configured
global cap > 0 strictly exceeds the total open-position count, any
per-instrument cap > 0 strictly exceeds that instrument's count, and any
equity floor > 0 is strictly below the account equity.  If `risk_guard`
(`src/guards.py`) accepts then the open counts are strictly below both
caps, but a configured equity floor > 0 only guarantees equity at or
above the floor (equality is accepted, not strictly above). -/
theorem C1_accept_respects_caps :
    (∀ env w, (check_pretrade_guards env w).ok = true →
        (0 < env.maxOpenPositions →
          (w.positionsAll.length : ℤ) < env.maxOpenPositions)
        ∧ (0 < env.maxTradesPerSymbol →
          (w.positionsSym.length : ℤ) < env.maxTradesPerSymbol)
        ∧ (0 < env.equityFloor →
          env.equityFloor < account_equity w.account))
    ∧ (∀ env w, (risk_guard env w).accepted = true →
        (0 < env.maxTradesPerSymbol →
          (w.positionsSym.length : ℤ) < env.maxTradesPerSymbol)
        ∧ (0 < env.maxOpenPositions →
          (w.positionsAll.length : ℤ) < env.maxOpenPositions)
        ∧ (0 < env.equityFloor → env.equityFloor ≤ sguard_equity w)) := by
  constructor
  · intro env w hok
    have hc := (check_pretrade_guards_ok_iff env w).mp hok
    refine ⟨fun hpos => ?_, fun hpos => ?_, fun hpos => ?_⟩
    · exact lt_of_not_le fun hle => hc.2.2.1 ⟨hpos, hle⟩
    · exact lt_of_not_le fun hle => hc.2.2.2.1 ⟨hpos, hle⟩
    · exact lt_of_not_le fun hle => hc.2.2.2.2.2.2.1 ⟨hpos, hle⟩
  · intro env w hok
    have hb := risk_guard_accept_bounds env w hok
    exact ⟨fun _ => hb.1, fun _ => hb.2.1, hb.2.2⟩

def envC1a : GuardEnv :=
  { agentMarketCheck := false, cooldownMin := 0, maxOpenPositions := 5,
    maxTradesPerSymbol := 3, maxPerSideSymbol := 0, agentMaxPerSide := 0,
    blockSameSide := false, equityFloor := 100, dailyLossLimit := 0,
    minSymbolFloatingPnl := 0 }

def wC1a : GuardWorld :=
  { marketOpen := true, lastTradeAt := none, nowMin := 0,
    positionsAll := [⟨0, 1⟩], positionsSym := [⟨0, 1⟩],
    account := some ⟨500, 500, 0⟩, side := "LONG" }

def envC1b : SGuardEnv :=
  { maxTradesPerSymbol := 2, maxOpenPositions := 6, blockSameSide := false,
    coolMin := 0, minSymbolPnl := -9999, equityFloor := 100,
    dailyLossLimit := 0 }

def wC1b : SGuardWorld :=
  { positionsAll := [], positionsSym := [], account := some (200, 200),
    nowSec := 0, side := "LONG" }

theorem C1_witness :
    ((0 < envC1a.maxOpenPositions →
        (wC1a.positionsAll.length : ℤ) < envC1a.maxOpenPositions)
      ∧ (0 < envC1a.maxTradesPerSymbol →
        (wC1a.positionsSym.length : ℤ) < envC1a.maxTradesPerSymbol)
      ∧ (0 < envC1a.equityFloor →
        envC1a.equityFloor < account_equity wC1a.account))
    ∧ ((0 < envC1b.maxTradesPerSymbol →
        (wC1b.positionsSym.length : ℤ) < envC1b.maxTradesPerSymbol)
      ∧ (0 < envC1b.maxOpenPositions →
        (wC1b.positionsAll.length : ℤ) < envC1b.maxOpenPositions)
      ∧ (0 < envC1b.equityFloor →
        envC1b.equityFloor ≤ sguard_equity wC1b)) := by
  constructor
  · refine C1_accept_respects_caps.1 envC1a wC1a ?_
    norm_num [check_pretrade_guards, cooldown_remaining,
      exposure_side_count, exposure_side_cap, same_side_block,
      account_equity, daily_pnl, floating_symbol_pnl, want_buy,
      envC1a, wC1a]
  · refine C1_accept_respects_caps.2 envC1b wC1b ?_
    norm_num [risk_guard, same_side_step, sguard_equity, sguard_balance,
      envC1b, wC1b]

def envC1x : SGuardEnv :=
  { maxTradesPerSymbol := 2, maxOpenPositions := 6, blockSameSide := false,
    coolMin := 0, minSymbolPnl := -9999, equityFloor := 100,
    dailyLossLimit := 0 }

def wC1x : SGuardWorld :=
  { positionsAll := [], positionsSym := [], account := some (100, 100),
    nowSec := 0, side := "LONG" }

/-- C1 counterexample: with an equity floor of 100 configured and account
equity exactly 100, `risk_guard` (`src/guards.py`) accepts, so the claim
"equity is strictly above the floor on acceptance" fails on this code. -/
theorem C1_counterexample :
    (risk_guard envC1x wC1x).accepted = true
      ∧ 0 < envC1x.equityFloor
      ∧ ¬(envC1x.equityFloor < sguard_equity wC1x) := by
  refine ⟨?_, by norm_num [envC1x], by norm_num [envC1x, wC1x, sguard_equity]⟩
  norm_num [risk_guard, same_side_step, sguard_equity, sguard_balance,
    envC1x, wC1x]

/-! ## Claim C2 -/

/-- Exhaustive write-behavior of the drop `risk_guard`: on acceptance the
cooldown map is unchanged; on rejection it records the current minute,
except for the invalid-side and cooldown-active rejections, which leave
the map unchanged. -/
theorem risk_guard_drop_write_cases (env : DGuardEnv) (w : DGuardWorld)
    (symbol side : String) :
    ((risk_guard_drop env w symbol side).1.accepted = true →
        (risk_guard_drop env w symbol side).2 = w.lastRejectMin)
      ∧ ((risk_guard_drop env w symbol side).1.accepted = false →
        ¬((risk_guard_drop env w symbol side).1.note = .invalidSide) →
        ¬((risk_guard_drop env w symbol side).1.note = .cooldown) →
        (risk_guard_drop env w symbol side).2
          = mapInsertI symbol w.nowMin w.lastRejectMin) := by
  by_cases hv : ¬(strUpper side = "LONG" ∨ strUpper side = "SHORT")
  · constructor <;> simp [risk_guard_drop, hv]
  by_cases hcd : 0 < env.cooldownMin
      ∧ w.nowMin - ((w.lastRejectMin.lookup symbol).getD 0) < env.cooldownMin
  · constructor <;> simp [risk_guard_drop, hv, hcd]
  by_cases hmb : market_bad env.marketCheck w.marketInfo = true
  · constructor <;> simp [risk_guard_drop, hv, hcd, hmb]
  by_cases hsess : in_session env.sessions w.nowDow w.nowSec = true
  swap
  · constructor <;> simp [risk_guard_drop, hv, hcd, hmb, hsess]
  rcases hp : w.positions with _ | ⟨symPos, allPos⟩
  · constructor <;> simp [risk_guard_drop, hv, hcd, hmb, hsess, hp]
  by_cases h1 : env.perSymbolCap ≤ (symPos.length : ℤ)
  · constructor <;> simp [risk_guard_drop, hv, hcd, hmb, hsess, hp, h1]
  by_cases h2 : env.globalCap ≤ (allPos.length : ℤ)
  · constructor <;> simp [risk_guard_drop, hv, hcd, hmb, hsess, hp, h1, h2]
  by_cases h3 : same_side_exists env.blockSameSide symPos (strUpper side)
      = true
  · constructor <;>
      simp [risk_guard_drop, hv, hcd, hmb, hsess, hp, h1, h2, h3]
  by_cases h4 : (symPos.map (fun p => p.profit)).sum < env.minSymbolPnl
  · constructor <;>
      simp [risk_guard_drop, hv, hcd, hmb, hsess, hp, h1, h2, h3, h4]
  rcases hae : w.accountEquity with _ | eqv
  · constructor <;>
      simp [risk_guard_drop, hv, hcd, hmb, hsess, hp, h1, h2, h3, h4, hae]
  by_cases h5 : 0 < env.equityFloor ∧ ¬(eqv = 0) ∧ eqv < env.equityFloor
  · constructor <;>
      simp [risk_guard_drop, hv, hcd, hmb, hsess, hp, h1, h2, h3, h4, hae,
        h5]
  constructor <;>
    simp [risk_guard_drop, hv, hcd, hmb, hsess, hp, h1, h2, h3, h4, hae, h5]

/-- C2 (amended): the drop `risk_guard` records the evaluation minute
against the instrument's cooldown key on every rejection except an
invalid-side rejection and a cooldown-active rejection; on acceptance the
cooldown map is left unchanged; and the app-module accept-path cooldown
entry is written by `note_trade` (invoked on successful submission),
which stores the given time under the normalized symbol key. -/
theorem C2_cooldown_write_behavior (env : DGuardEnv) (w : DGuardWorld)
    (symbol side : String) (m : List (String × ℚ)) (now : ℚ) :
    ((risk_guard_drop env w symbol side).1.accepted = true →
        (risk_guard_drop env w symbol side).2 = w.lastRejectMin)
      ∧ ((risk_guard_drop env w symbol side).1.accepted = false →
        ¬((risk_guard_drop env w symbol side).1.note = .invalidSide) →
        ¬((risk_guard_drop env w symbol side).1.note = .cooldown) →
        (risk_guard_drop env w symbol side).2
          = mapInsertI symbol w.nowMin w.lastRejectMin)
      ∧ (note_trade m symbol now).lookup (normalizeKey symbol)
          = some now := by
  refine ⟨(risk_guard_drop_write_cases env w symbol side).1,
    (risk_guard_drop_write_cases env w symbol side).2, ?_⟩
  unfold note_trade
  exact mapInsertQ_lookup (normalizeKey symbol) now m

def envC2 : DGuardEnv :=
  { cooldownMin := 10, marketCheck := false, sessions := [],
    perSymbolCap := 2, globalCap := 6, blockSameSide := false,
    minSymbolPnl := -9999, equityFloor := 0, dailyLossLimit := 0 }

def wC2 : DGuardWorld :=
  { nowMin := 105, lastRejectMin := [("XAUUSD", 100)], marketInfo := none,
    nowDow := 2, nowSec := 36000, positions := some ([], []),
    accountEquity := some 1000 }

/-- C2 counterexample: a cooldown-active rejection leaves the cooldown
map untouched — the evaluation minute (105) is not recorded; the stored
entry stays at 100.  So "whenever the guard rejects, it records the
evaluation time" fails on this code. -/
theorem C2_counterexample :
    (risk_guard_drop envC2 wC2 "XAUUSD" "LONG").1.accepted = false
      ∧ (risk_guard_drop envC2 wC2 "XAUUSD" "LONG").2 = wC2.lastRejectMin
      ∧ ¬((risk_guard_drop envC2 wC2 "XAUUSD" "LONG").2.lookup "XAUUSD"
          = some wC2.nowMin) := by
  have hside : strUpper "LONG" = "LONG" := by decide
  refine ⟨?_, ?_, ?_⟩ <;>
    norm_num [risk_guard_drop, market_bad, same_side_exists, in_session, envC2, wC2, hside, List.lookup]

/-- C2 witness: a per-symbol-cap rejection records the evaluation
minute, and an acceptance leaves the map unchanged. -/
theorem C2_witness :
    (risk_guard_drop envC2
        { wC2 with lastRejectMin := [], positions := some ([⟨some "BUY", none, none, 0⟩, ⟨some "BUY", none, none, 0⟩], []) }
        "XAUUSD" "LONG").2
      = mapInsertI "XAUUSD" 105 [] := by
  refine (C2_cooldown_write_behavior envC2 _ "XAUUSD" "LONG" [] 0).2.1
    ?_ ?_ ?_ <;>
  · have hside : strUpper "LONG" = "LONG" := by decide
    norm_num [risk_guard_drop, market_bad, same_side_exists, in_session,
      envC2, wC2, hside, List.lookup]
    try decide

/-! ## Claim C3 -/

/-- The effective maximum lot of the risk path: MAX_LOT, capped by the
per-symbol override when present. -/
def eff_max_lot (env : SizingEnv) : ℚ :=
  match env.envLots with
  | none => env.maxLot
  | some v => min env.maxLot v

theorem risk_lots_from_sl_nonneg (info : Option SymbolInfoSz) (d x lots : ℚ)
    (h : risk_lots_from_sl info d (max 0 x) = some lots) : 0 ≤ lots := by
  rcases info with _ | si
  · simp [risk_lots_from_sl] at h
  · simp only [risk_lots_from_sl] at h
    split_ifs at h with e1 e2 e3 e4 e5 <;>
      first
        | exact Option.noConfusion h
        | (replace h := Option.some.inj h
           subst h
           exact div_nonneg (le_max_left 0 x)
             (le_of_lt (lt_of_not_le (by assumption))))

theorem risk_lots_from_sl_nonpos_dist (info : Option SymbolInfoSz)
    (d r : ℚ) (hd : d ≤ 0)
    (hnn : ∀ si, info = some si →
      0 ≤ si.tradeTickValue ∧ 0 ≤ si.tradeTickSize ∧ 0 ≤ si.point) :
    risk_lots_from_sl info d r = none := by
  unfold risk_lots_from_sl
  rcases info with _ | si
  · rfl
  · simp only
    obtain ⟨htv, hts, hpt⟩ := hnn si rfl
    by_cases h1 : (if si.tradeTickSize = 0 then si.point
        else si.tradeTickSize) = 0 ∨ si.tradeTickValue = 0
    · rw [if_pos h1]
    · rw [if_neg h1]
      push_neg at h1
      have htspos : 0 < (if si.tradeTickSize = 0 then si.point
          else si.tradeTickSize) := by
        rcases lt_or_eq_of_le (by split_ifs <;> assumption :
            (0:ℚ) ≤ (if si.tradeTickSize = 0 then si.point
              else si.tradeTickSize)) with hlt | heq
        · exact hlt
        · exact absurd heq.symm h1.1
      have htvpos : 0 < si.tradeTickValue :=
        lt_of_le_of_ne htv (fun heq => h1.2 heq.symm)
      have hmon : 0 < si.tradeTickValue
          / (if si.tradeTickSize = 0 then si.point else si.tradeTickSize) :=
        div_pos htvpos htspos
      rw [if_pos (mul_nonpos_of_nonpos_of_nonneg hd hmon.le)]

/-- C3 (amended): `compute_lot` is total, but the fixed path returns the
per-symbol override (else the default) verbatim — unclamped, unstepped
and unchecked for positivity.  Specifically: (1) in fixed mode the result
is exactly `fixed_lots`; (2) whenever the risk computation yields no lot
(no account, or non-positive risk-per-lot) the result is `fixed_lots`;
(3) a non-positive stop distance with nonnegative broker tick economics
always yields no lot, i.e. falls back to the fixed policy instead of
dividing by zero; (4) on the risk path with a positive volume step
(step and minLot at most the effective max lot, minLot nonnegative) the
result is a strictly positive multiple of the volume step, at most the
effective max lot and above minLot minus one step. -/
theorem C3_compute_lot_behavior :
    (∀ env w slPips mArg dl, strLower (mArg.getD env.lotMode) = "fixed" →
        compute_lot env w slPips mArg dl
          = fixed_lots env (dl.getD env.defaultLots))
    ∧ (∀ env w p mArg dl b,
        w.accountBalance = some b →
        risk_lots_from_sl w.info
            (pip_to_price env.xauPipAbs w.symbol w.info p)
            (max 0 (b * env.riskPct)) = none →
        compute_lot env w (some p) mArg dl
          = fixed_lots env (dl.getD env.defaultLots))
    ∧ (∀ (env : SizingEnv) (w : SizingWorld) (p r : ℚ),
        pip_to_price env.xauPipAbs w.symbol w.info p ≤ 0 →
        (∀ si, w.info = some si →
          0 ≤ si.tradeTickValue ∧ 0 ≤ si.tradeTickSize ∧ 0 ≤ si.point) →
        risk_lots_from_sl w.info
          (pip_to_price env.xauPipAbs w.symbol w.info p) r = none)
    ∧ (∀ env w p mArg dl b si lots,
        ¬(strLower (mArg.getD env.lotMode) = "fixed") →
        w.accountBalance = some b →
        w.info = some si →
        risk_lots_from_sl w.info
            (pip_to_price env.xauPipAbs w.symbol w.info p)
            (max 0 (b * env.riskPct)) = some lots →
        0 < si.volumeStep →
        0 ≤ env.minLot →
        env.minLot ≤ eff_max_lot env →
        si.volumeStep ≤ eff_max_lot env →
        0 < compute_lot env w (some p) mArg dl
          ∧ compute_lot env w (some p) mArg dl ≤ eff_max_lot env
          ∧ env.minLot - si.volumeStep < compute_lot env w (some p) mArg dl
          ∧ ∃ k : ℤ, compute_lot env w (some p) mArg dl
              = (k : ℚ) * si.volumeStep) := by
  refine ⟨?_, ?_, ?_, ?_⟩
  · intro env w slPips mArg dl hm
    simp [compute_lot, hm]
  · intro env w p mArg dl b hb hrl
    by_cases hm : strLower (mArg.getD env.lotMode) = "fixed"
    · simp [compute_lot, hm]
    · simp [compute_lot, hm, hb, hrl]
  · intro env w p r hd hnn
    exact risk_lots_from_sl_nonpos_dist w.info _ r hd hnn
  · intro env w p mArg dl b si lots hm hb hsi hrl hstep hmin hminle hstple
    have hlots : 0 ≤ lots := risk_lots_from_sl_nonneg w.info _ _ lots hrl
    have hrl2 := hrl
    rw [hsi] at hrl2
    have hres : compute_lot env w (some p) mArg dl
        = max ((pyTrunc (max env.minLot (min (eff_max_lot env) lots)
            / si.volumeStep) : ℚ) * si.volumeStep) si.volumeStep := by
      have hstep0 : ¬(si.volumeStep = 0) := ne_of_gt hstep
      simp only [compute_lot, if_neg hm, hb, hsi, hrl2, eff_max_lot,
        if_neg hstep0]
    set L := max env.minLot (min (eff_max_lot env) lots) with hL
    have hL0 : 0 ≤ L := le_trans hmin (le_max_left _ _)
    have hLmax : L ≤ eff_max_lot env := by
      apply max_le hminle
      exact le_trans (min_le_left _ _) le_rfl
    have htr : pyTrunc (L / si.volumeStep) = ⌊L / si.volumeStep⌋ := by
      unfold pyTrunc
      rw [if_pos (div_nonneg hL0 hstep.le)]
    have hfl1 : (⌊L / si.volumeStep⌋ : ℚ) * si.volumeStep ≤ L := by
      rw [mul_comm]
      calc si.volumeStep * (⌊L / si.volumeStep⌋ : ℚ)
          ≤ si.volumeStep * (L / si.volumeStep) :=
            mul_le_mul_of_nonneg_left (Int.floor_le _) hstep.le
        _ = L := by field_simp
    have hfl2 : L - si.volumeStep < (⌊L / si.volumeStep⌋ : ℚ)
        * si.volumeStep := by
      have h1 : L / si.volumeStep < (⌊L / si.volumeStep⌋ : ℚ) + 1 :=
        Int.lt_floor_add_one _
      have h2 : L < ((⌊L / si.volumeStep⌋ : ℚ) + 1) * si.volumeStep := by
        calc L = (L / si.volumeStep) * si.volumeStep := by field_simp
          _ < ((⌊L / si.volumeStep⌋ : ℚ) + 1) * si.volumeStep :=
            mul_lt_mul_of_pos_right h1 hstep
      linarith [h2]
    rw [hres, htr]
    refine ⟨lt_of_lt_of_le hstep (le_max_right _ _),
      max_le (le_trans hfl1 hLmax) hstple, ?_, ?_⟩
    · have h1 : env.minLot ≤ L := le_max_left _ _
      have h3 : (⌊L / si.volumeStep⌋ : ℚ) * si.volumeStep
          ≤ max ((⌊L / si.volumeStep⌋ : ℚ) * si.volumeStep)
            si.volumeStep := le_max_left _ _
      linarith [hfl2]
    · rcases max_cases ((⌊L / si.volumeStep⌋ : ℚ) * si.volumeStep)
          si.volumeStep with ⟨heq, _⟩ | ⟨heq, _⟩
      · exact ⟨⌊L / si.volumeStep⌋, by rw [heq]⟩
      · exact ⟨1, by rw [heq]; ring⟩

def envC3x : SizingEnv :=
  { lotMode := "fixed", defaultLots := 1/100, envLots := some 0,
    riskPct := 1/100, minLot := 1/100, maxLot := 1, xauPipAbs := 1/10 }

def wC3x : SizingWorld :=
  { symbol := "EURUSD", info := none, accountBalance := none }

/-- C3 counterexample: in fixed mode with a per-symbol override of 0,
`compute_lot` returns 0 — not strictly positive, outside
`[minLot, maxLot] = [0.01, 1]`, contradicting the claim. -/
theorem C3_counterexample :
    compute_lot envC3x wC3x (some 50) none none = 0
      ∧ ¬(0 < compute_lot envC3x wC3x (some 50) none none)
      ∧ ¬(envC3x.minLot ≤ compute_lot envC3x wC3x (some 50) none none) := by
  have hf : strLower "fixed" = "fixed" := by decide
  have h : compute_lot envC3x wC3x (some 50) none none = 0 := by
    norm_num [compute_lot, fixed_lots, envC3x, hf]
  refine ⟨h, by rw [h]; norm_num, by rw [h]; norm_num [envC3x]⟩

def envC3w : SizingEnv :=
  { lotMode := "risk", defaultLots := 1/100, envLots := none,
    riskPct := 1/100, minLot := 1/100, maxLot := 1, xauPipAbs := 1/10 }

def siC3w : SymbolInfoSz :=
  { point := 1/10000, tradeTickValue := 1, tradeTickSize := 1/10000,
    volumeStep := 1/100 }

def wC3w : SizingWorld :=
  { symbol := "EURUSD", info := some siC3w, accountBalance := some 10000 }

theorem C3_witness :
    0 < compute_lot envC3w wC3w (some 50) none none
      ∧ compute_lot envC3w wC3w (some 50) none none ≤ eff_max_lot envC3w
      ∧ envC3w.minLot - siC3w.volumeStep
          < compute_lot envC3w wC3w (some 50) none none
      ∧ ∃ k : ℤ, compute_lot envC3w wC3w (some 50) none none
          = (k : ℚ) * siC3w.volumeStep := by
  have hx : is_xau_symbol "EURUSD" = false := by decide
  have hr : strLower "risk" = "risk" := by decide
  refine C3_compute_lot_behavior.2.2.2 envC3w wC3w 50 none none 10000
    siC3w (1/5) ?_ ?_ ?_ ?_ ?_ ?_ ?_ ?_
  · simp [envC3w, hr]
  · rfl
  · rfl
  · norm_num [risk_lots_from_sl, pip_to_price, envC3w, wC3w, siC3w, hx]
  · norm_num [siC3w]
  · norm_num [envC3w]
  · norm_num [envC3w, eff_max_lot]
  · norm_num [envC3w, siC3w, eff_max_lot]

/-! ## Claim C4 -/

/-- If no response in the script is a successful fill, the protected
submission loop exhausts its budget without filling. -/
theorem protected_attempts_no_done (wm : ℚ) (pm : String) (ix : Bool)
    (info : Option ClientInfo) (mp : ℤ) (side : OrderSide) (price : ℚ)
    (script : List (Option Resp)) :
    (∀ r ∈ script, ¬(r.map Resp.retcode = some 10009)) →
    ∀ st, ∃ st2,
      protected_attempts wm pm ix info mp side price script st
        = .inr st2 := by
  induction script with
  | nil => exact fun _ st => ⟨st, rfl⟩
  | cons r rest ih =>
      intro hnd st
      have hnd' : ∀ q ∈ rest, ¬(q.map Resp.retcode = some 10009) :=
        fun q hq => hnd q (List.mem_cons_of_mem _ hq)
      rcases r with _ | resp
      · simpa [protected_attempts] using ih hnd' st
      · have h9 : ¬(resp.retcode = 10009) := by
          have := hnd (some resp) (List.mem_cons_self _ _)
          simpa using this
        simp only [protected_attempts, if_neg h9]
        split_ifs with hb hi
        · exact ih hnd' st
        · exact ih hnd' _
        · exact ih hnd' _

/-- C4: when the stop-protected submission never succeeds within the
retry budget, `place_order` submits the same order naked; when the naked
order fills (nonzero ticket) but the separate stop-attach retry loop
fails, the terminal outcome is the distinct attach-failed shape
(`ok: True` with a `sltp_attach_failed` warning and the ticket), which
differs from both full-success shapes and from the rejection shape. -/
theorem C4_naked_fallback_outcome (env : ClientEnv) (w : ClientWorld)
    (symbol : String) (ci : ClientInfo) (ticket : ℤ)
    (hsym : w.symbol = some symbol)
    (hdry : env.dryRun = false)
    (htest : env.testMode = false)
    (hinfo : w.info = some ci)
    (hprot : ∀ r ∈ w.protScript.take env.retries,
      ¬(r.map Resp.retcode = some 10009))
    (hnaked : naked_attempts (w.nakedScript.take env.retries) = some ticket)
    (ht : ¬(ticket = 0))
    (hatt : attach_sltp (w.attachScript.take env.retries) = false) :
    place_order env w = .filledAttachFailed ticket
      ∧ (∀ rc cm, POResult.filledAttachFailed ticket
          ≠ .filledProtected rc cm)
      ∧ (∀ t2, POResult.filledAttachFailed ticket ≠ .filledAttached t2)
      ∧ (∀ lr, POResult.filledAttachFailed ticket ≠ .rejected lr) := by
  refine ⟨?_, fun rc cm => by simp, fun t2 => by simp, fun lr => by simp⟩
  unfold place_order
  simp only [hsym, hdry, htest, hinfo, Bool.false_eq_true, if_false]
  split
  · next resp heq =>
      obtain ⟨st2, hst⟩ := protected_attempts_no_done env.widenMult
        env.indicesPipMode (is_index_symbol symbol) (some ci)
        env.minStopPoints (get_side w.sideRaw)
        (ensure_market_price w.tick (get_side w.sideRaw) w.reqPrice)
        (w.protScript.take env.retries) hprot _
      rw [hst] at heq
      simp at heq
  · next stF heq =>
      simp [hnaked, ht, hatt]

def ciC4 : ClientInfo :=
  { point := 1/10000, tradeStopsLevel := 0, volumeMin := 1/100,
    volumeMax := 100, volumeStep := 1/100 }

def envC4 : ClientEnv :=
  { dryRun := false, testMode := false, retries := 2, widenMult := 2,
    minStopPoints := 300, indicesPipMode := "mt5_point", lots := 1/100 }

def wC4 : ClientWorld :=
  { symbol := some "EURUSD", sideRaw := "LONG", slPips := 100,
    tpPips := 200, reqPrice := none, tick := some (1, 101/100),
    info := some ciC4,
    protScript := [some ⟨10013, "invalid price", 0⟩,
      some ⟨10013, "invalid price", 0⟩],
    nakedScript := [some ⟨10009, "done", 555⟩, none],
    attachScript := [some ⟨10016, "busy", 0⟩, some ⟨10013, "rejected", 0⟩] }

theorem C4_witness :
    place_order envC4 wC4 = .filledAttachFailed 555
      ∧ (∀ rc cm, POResult.filledAttachFailed 555
          ≠ .filledProtected rc cm)
      ∧ (∀ t2, POResult.filledAttachFailed 555 ≠ .filledAttached t2)
      ∧ (∀ lr, POResult.filledAttachFailed 555 ≠ .rejected lr) :=
  C4_naked_fallback_outcome envC4 wC4 "EURUSD" ciC4 555 rfl rfl rfl rfl
    (by decide) (by decide) (by decide) (by decide)

/-! ## Claim C8 -/

theorem round_to_tick_half (info : Option SymInfoX) (p : ℚ)
    (hts : 0 < x_tick_size info) :
    |round_to_tick info p - p| ≤ x_tick_size info / 2 := by
  unfold round_to_tick
  rw [if_neg (not_le.mpr hts)]
  have hne : x_tick_size info ≠ 0 := ne_of_gt hts
  have key : (roundHalfEven (p / x_tick_size info) : ℚ) * x_tick_size info
      - p = ((roundHalfEven (p / x_tick_size info) : ℚ)
        - p / x_tick_size info) * x_tick_size info := by
    field_simp
  rw [key, abs_mul, abs_of_pos hts]
  have := abs_roundHalfEven_sub (p / x_tick_size info)
  calc |(roundHalfEven (p / x_tick_size info) : ℚ)
        - p / x_tick_size info| * x_tick_size info
      ≤ 1/2 * x_tick_size info := by
        exact mul_le_mul_of_nonneg_right this hts.le
    _ = x_tick_size info / 2 := by ring

theorem round_to_tick_grid (info : Option SymInfoX) (p : ℚ)
    (hts : 0 < x_tick_size info) :
    ∃ k : ℤ, round_to_tick info p = (k : ℚ) * x_tick_size info := by
  unfold round_to_tick
  rw [if_neg (not_le.mpr hts)]
  exact ⟨roundHalfEven (p / x_tick_size info), rfl⟩

theorem round_to_tick_int_mul (info : Option SymInfoX) (k : ℤ)
    (hts : 0 < x_tick_size info) :
    round_to_tick info ((k : ℚ) * x_tick_size info)
      = (k : ℚ) * x_tick_size info := by
  unfold round_to_tick
  rw [if_neg (not_le.mpr hts)]
  have hne : x_tick_size info ≠ 0 := ne_of_gt hts
  rw [mul_div_cancel_right₀ _ hne, roundHalfEven_intCast]

theorem pyRound_of_den (nd : ℕ) (x : ℚ) (n : ℤ)
    (h : x * (10 : ℚ) ^ nd = (n : ℚ)) : pyRound nd x = x := by
  unfold pyRound
  rw [h, roundHalfEven_intCast, ← h]
  have hne : ((10 : ℚ) ^ nd) ≠ 0 := by positivity
  field_simp

theorem round_price_to_tick_floor (info : Option SymInfoP) (p : ℚ)
    (m : ℤ) (hts : 0 < p_tick_size info)
    (hm : p_tick_size info = (m : ℚ) / 10 ^ 10) :
    round_price_to_tick info p
      = (⌊p / p_tick_size info⌋ : ℚ) * p_tick_size info := by
  unfold round_price_to_tick
  rw [if_neg (not_le.mpr hts)]
  apply pyRound_of_den 10 _ (⌊p / p_tick_size info⌋ * m)
  rw [hm]
  push_cast
  have hne : ((10 : ℚ) ^ (10 : ℕ)) ≠ 0 := by positivity
  field_simp

theorem floor_tick_bound (ts p : ℚ) (hts : 0 < ts) :
    |(⌊p / ts⌋ : ℚ) * ts - p| ≤ ts := by
  have hne : ts ≠ 0 := ne_of_gt hts
  have h1 : (⌊p / ts⌋ : ℚ) * ts ≤ p := by
    calc (⌊p / ts⌋ : ℚ) * ts ≤ (p / ts) * ts :=
        mul_le_mul_of_nonneg_right (Int.floor_le _) hts.le
      _ = p := by field_simp
  have h2 : p < ((⌊p / ts⌋ : ℚ) + 1) * ts := by
    calc p = (p / ts) * ts := by field_simp
      _ < ((⌊p / ts⌋ : ℚ) + 1) * ts :=
        mul_lt_mul_of_pos_right (Int.lt_floor_add_one _) hts
  rw [abs_le]
  constructor <;> nlinarith

/-- C8: converting a pip distance to an absolute stop price
(`_price_from_pips`, then rounding to the tick grid) and converting that
price back to a price distance recovers the pip distance in price units
within one tick size, for both sides and for both tick-rounding
functions (`_round_to_tick`, round to nearest, and
`round_price_to_tick`, floor with a 10-decimal display round); and both
tick-rounding functions are idempotent — a tick-aligned price is left
unchanged. -/
theorem C8_round_trip_tick_rounding :
    (∀ (symbol : String) (info : Option SymInfoX) (entry pips : ℚ),
        0 < x_tick_size info →
        |(entry - round_to_tick info
            (price_from_pips symbol info entry pips "LONG" true))
          - x_pip_size symbol info * pips| ≤ x_tick_size info
        ∧ |(round_to_tick info
            (price_from_pips symbol info entry pips "SHORT" true) - entry)
          - x_pip_size symbol info * pips| ≤ x_tick_size info)
    ∧ (∀ (info : Option SymInfoP) (entry d : ℚ) (m : ℤ),
        0 < p_tick_size info →
        p_tick_size info = (m : ℚ) / 10 ^ 10 →
        |(entry - round_price_to_tick info (entry - d)) - d|
          ≤ p_tick_size info
        ∧ |(round_price_to_tick info (entry + d) - entry) - d|
          ≤ p_tick_size info)
    ∧ (∀ (info : Option SymInfoX) (k : ℤ), 0 < x_tick_size info →
        round_to_tick info ((k : ℚ) * x_tick_size info)
          = (k : ℚ) * x_tick_size info)
    ∧ (∀ (info : Option SymInfoX) (p : ℚ),
        round_to_tick info (round_to_tick info p) = round_to_tick info p)
    ∧ (∀ (info : Option SymInfoP) (p : ℚ) (m : ℤ),
        0 < p_tick_size info →
        p_tick_size info = (m : ℚ) / 10 ^ 10 →
        round_price_to_tick info (round_price_to_tick info p)
          = round_price_to_tick info p) := by
  have hshort : ∀ (symbol : String) (info : Option SymInfoX)
      (entry pips : ℚ),
      price_from_pips symbol info entry pips "SHORT" true
        = entry + x_pip_size symbol info * pips := by
    intro symbol info entry pips
    simp [price_from_pips]
  have hlong : ∀ (symbol : String) (info : Option SymInfoX)
      (entry pips : ℚ),
      price_from_pips symbol info entry pips "LONG" true
        = entry - x_pip_size symbol info * pips := by
    intro symbol info entry pips
    simp [price_from_pips]
  refine ⟨?_, ?_, fun info k h => round_to_tick_int_mul info k h, ?_, ?_⟩
  · intro symbol info entry pips hts
    constructor
    · rw [hlong]
      have hb := abs_le.mp
        (round_to_tick_half info (entry - x_pip_size symbol info * pips) hts)
      rw [abs_le]
      constructor <;> [linarith [hb.1, hb.2, hts] ; linarith [hb.1, hb.2, hts]]
    · rw [hshort]
      have hb := abs_le.mp
        (round_to_tick_half info (entry + x_pip_size symbol info * pips) hts)
      rw [abs_le]
      constructor <;> [linarith [hb.1, hb.2, hts] ; linarith [hb.1, hb.2, hts]]
  · intro info entry d m hts hm
    constructor
    · rw [round_price_to_tick_floor info (entry - d) m hts hm]
      have hb := abs_le.mp (floor_tick_bound (p_tick_size info) (entry - d)
        hts)
      rw [abs_le]
      exact ⟨by linarith [hb.2], by linarith [hb.1]⟩
    · rw [round_price_to_tick_floor info (entry + d) m hts hm]
      have hb := abs_le.mp (floor_tick_bound (p_tick_size info) (entry + d)
        hts)
      rw [abs_le]
      exact ⟨by linarith [hb.1], by linarith [hb.2]⟩
  · intro info p
    by_cases hts : x_tick_size info ≤ 0
    · unfold round_to_tick
      rw [if_pos hts, if_pos hts]
    · have hts' : 0 < x_tick_size info := lt_of_not_le hts
      obtain ⟨k, hk⟩ := round_to_tick_grid info p hts'
      rw [hk, round_to_tick_int_mul info k hts']
  · intro info p m hts hm
    rw [round_price_to_tick_floor info p m hts hm,
      round_price_to_tick_floor info _ m hts hm]
    have hne : p_tick_size info ≠ 0 := ne_of_gt hts
    rw [mul_div_cancel_right₀ _ hne, Int.floor_intCast]

theorem C8_witness :
    (|((1 : ℚ) - round_to_tick (some ⟨5, 1/10000, some (1/10000), 2⟩)
        (price_from_pips "EURUSD" (some ⟨5, 1/10000, some (1/10000), 2⟩)
          1 3 "LONG" true))
      - x_pip_size "EURUSD" (some ⟨5, 1/10000, some (1/10000), 2⟩) * 3|
      ≤ x_tick_size (some ⟨5, 1/10000, some (1/10000), 2⟩))
    ∧ round_to_tick (some ⟨5, 1/10000, some (1/10000), 2⟩)
        ((7 : ℚ) * x_tick_size (some ⟨5, 1/10000, some (1/10000), 2⟩))
      = (7 : ℚ) * x_tick_size (some ⟨5, 1/10000, some (1/10000), 2⟩) := by
  have hts : 0 < x_tick_size (some ⟨5, 1/10000, some (1/10000), 2⟩) := by
    norm_num [x_tick_size, x_point]
  exact ⟨(C8_round_trip_tick_rounding.1 "EURUSD"
      (some ⟨5, 1/10000, some (1/10000), 2⟩) 1 3 hts).1,
    C8_round_trip_tick_rounding.2.2.1
      (some ⟨5, 1/10000, some (1/10000), 2⟩) 7 hts⟩

/-! ## Claim C7 -/

theorem push_round_low (info : Option SymInfoX) (entry v minDist : ℚ)
    (hts : 0 < x_tick_size info)
    (hgrid : ∃ k : ℤ, v = (k : ℚ) * x_tick_size info) :
    minDist - x_tick_size info / 2
      ≤ entry - round_to_tick info
          (if entry - v < minDist then entry - minDist else v) := by
  by_cases hc : entry - v < minDist
  · rw [if_pos hc]
    have hb := abs_le.mp (round_to_tick_half info (entry - minDist) hts)
    linarith [hb.2]
  · rw [if_neg hc]
    obtain ⟨k, hk⟩ := hgrid
    rw [hk, round_to_tick_int_mul info k hts, ← hk]
    push_neg at hc
    linarith [hts]

theorem push_round_high (info : Option SymInfoX) (entry v minDist : ℚ)
    (hts : 0 < x_tick_size info)
    (hgrid : ∃ k : ℤ, v = (k : ℚ) * x_tick_size info) :
    minDist - x_tick_size info / 2
      ≤ round_to_tick info
          (if v - entry < minDist then entry + minDist else v) - entry := by
  by_cases hc : v - entry < minDist
  · rw [if_pos hc]
    have hb := abs_le.mp (round_to_tick_half info (entry + minDist) hts)
    linarith [hb.1]
  · rw [if_neg hc]
    obtain ⟨k, hk⟩ := hgrid
    rw [hk, round_to_tick_int_mul info k hts, ← hk]
    push_neg at hc
    linarith [hts]

/-- C7 (amended): with a positive broker stop level and positive tick
size, the prices returned by `compute_sl_tp_prices` lie on the tick
grid, and their distances from the entry are at least the minimum
distance (stop-level points × point) **minus half a tick**: the final
re-round to the tick grid can pull a pushed stop back toward the entry
by up to half a tick, so the exact minimum-distance bound of the claim
does not hold (see the counterexample). -/
theorem C7_min_stop_distance (symbol : String) (info : Option SymInfoX)
    (side : String) (entry slPips tpPips sl tp : ℚ)
    (hpts : 0 < x_stop_level_points info)
    (hts : 0 < x_tick_size info)
    (h : compute_sl_tp_prices symbol info side entry slPips tpPips
        = some (sl, tp)) :
    ((strUpper side = "LONG" →
        x_stop_level_points info * x_point info - x_tick_size info / 2
            ≤ entry - sl
          ∧ x_stop_level_points info * x_point info - x_tick_size info / 2
            ≤ tp - entry)
      ∧ (strUpper side = "SHORT" →
        x_stop_level_points info * x_point info - x_tick_size info / 2
            ≤ sl - entry
          ∧ x_stop_level_points info * x_point info - x_tick_size info / 2
            ≤ entry - tp))
      ∧ (∃ k : ℤ, sl = (k : ℚ) * x_tick_size info)
      ∧ (∃ k : ℤ, tp = (k : ℚ) * x_tick_size info) := by
  unfold compute_sl_tp_prices at h
  by_cases hv : ¬(strUpper side = "LONG" ∨ strUpper side = "SHORT")
  · rw [if_pos hv] at h
    exact absurd h (by simp)
  rw [if_neg hv] at h
  simp only [Option.some.injEq] at h
  rw [ensure_min_stop_distance] at h
  simp only [if_neg (not_le.mpr hpts), Prod.mk.injEq] at h
  obtain ⟨hsl, htp⟩ := h
  subst hsl
  subst htp
  refine ⟨⟨?_, ?_⟩, ?_, ?_⟩
  · intro hlong
    simp only [hlong, if_true, if_pos rfl]
    constructor
    · exact push_round_low info entry _ _ hts
        (round_to_tick_grid info _ hts)
    · exact push_round_high info entry _ _ hts
        (round_to_tick_grid info _ hts)
  · intro hshort
    have hne : ¬(strUpper side = "LONG") := by
      rw [hshort]
      decide
    simp only [hne, if_false]
    constructor
    · exact push_round_high info entry _ _ hts
        (round_to_tick_grid info _ hts)
    · exact push_round_low info entry _ _ hts
        (round_to_tick_grid info _ hts)
  · split_ifs <;> exact round_to_tick_grid info _ hts
  · split_ifs <;> exact round_to_tick_grid info _ hts

def infoC7 : SymInfoX :=
  { digits := 5, point := 1/10000, tradeTickSize := some (1/10000),
    tradeStopsLevel := 2 }

theorem roundHalfEven_eq_of_lt (x : ℚ) (n : ℤ) (h1 : (n : ℚ) ≤ x)
    (h2 : x < (n : ℚ) + 1/2) : roundHalfEven x = n := by
  have hf : ⌊x⌋ = n := by
    rw [Int.floor_eq_iff]
    refine ⟨h1, by linarith⟩
  unfold roundHalfEven
  simp only [hf]
  rw [if_pos (by linarith)]

theorem roundHalfEven_eq_of_gt (x : ℚ) (n : ℤ) (h1 : (n : ℚ) - 1/2 < x)
    (h2 : x ≤ (n : ℚ)) : roundHalfEven x = n := by
  rcases eq_or_lt_of_le h2 with heq | hlt
  · rw [heq, roundHalfEven_intCast]
  · have hf : ⌊x⌋ = n - 1 := by
      rw [Int.floor_eq_iff]
      constructor
      · push_cast; linarith
      · push_cast; linarith
    unfold roundHalfEven
    simp only [hf]
    rw [if_neg (by push_cast; linarith), if_pos (by push_cast; linarith)]
    omega

theorem round_to_tick_eval_C7 (p : ℚ) (n : ℤ)
    (hn : roundHalfEven (p * 10000) = n) :
    round_to_tick (some infoC7) p = (n : ℚ) / 10000 := by
  have hts1 : x_tick_size (some infoC7) = 1/10000 := by
    norm_num [x_tick_size, x_point, infoC7]
  simp only [round_to_tick, hts1]
  rw [if_neg (by norm_num)]
  have harg : p / (1/10000 : ℚ) = p * 10000 := by ring
  rw [harg, hn]
  ring

theorem pip_size_eurusd_C7 : x_pip_size "EURUSD" (some infoC7) = 1/10000 := by
  have hxs : hasSub "XAU".toList (strUpper "EURUSD").toList = false := by
    decide
  simp only [x_pip_size, hxs]
  norm_num [x_digits, infoC7]

/-- C7 counterexample: with a 2-point (0.0002) broker minimum, an entry
of 1.00006 and a 0.2-pip stop request, the stop is pushed to
entry − 0.0002 = 0.99986 but the final tick rounding moves it to 0.9999,
leaving a distance of 0.00016 < 0.0002 — strictly inside the broker
minimum, contradicting "distances are each at least the minimum". -/
theorem C7_counterexample :
    compute_sl_tp_prices "EURUSD" (some infoC7) "LONG" (50003/50000)
        (1/5) 10 = some (9999/10000, 10011/10000)
      ∧ 0 < x_stop_level_points (some infoC7)
      ∧ (50003/50000 : ℚ) - 9999/10000
          < x_stop_level_points (some infoC7) * x_point (some infoC7) := by
  have hL : strUpper "LONG" = "LONG" := by decide
  refine ⟨?_, by norm_num [x_stop_level_points, infoC7],
    by norm_num [x_stop_level_points, x_point, infoC7]⟩
  have hrawsl : price_from_pips "EURUSD" (some infoC7) (50003/50000)
      (1/5) "LONG" true = 25001/25000 := by
    simp only [price_from_pips, pip_size_eurusd_C7]
    norm_num
  have hrawtp : price_from_pips "EURUSD" (some infoC7) (50003/50000)
      10 "LONG" false = 50053/50000 := by
    simp only [price_from_pips, pip_size_eurusd_C7]
    norm_num
  have hsl1 : round_to_tick (some infoC7) (25001/25000) = 1 := by
    rw [round_to_tick_eval_C7 (25001/25000) 10000
      (roundHalfEven_eq_of_lt _ 10000 (by norm_num) (by norm_num))]
    norm_num
  have htp1 : round_to_tick (some infoC7) (50053/50000) = 10011/10000 := by
    rw [round_to_tick_eval_C7 (50053/50000) 10011
      (roundHalfEven_eq_of_gt _ 10011 (by norm_num) (by norm_num))]
    norm_num
  have hpush : round_to_tick (some infoC7) (49993/50000) = 9999/10000 := by
    rw [round_to_tick_eval_C7 (49993/50000) 9999
      (roundHalfEven_eq_of_gt _ 9999 (by norm_num) (by norm_num))]
    norm_num
  have hpts : x_stop_level_points (some infoC7) = 2 := by
    norm_num [x_stop_level_points, infoC7]
  have hpt : x_point (some infoC7) = 1/10000 := by
    norm_num [x_point, infoC7]
  have htpr : round_to_tick (some infoC7) (10011/10000)
      = 10011/10000 := by
    rw [round_to_tick_eval_C7 (10011/10000) 10011
      (roundHalfEven_eq_of_lt _ 10011 (by norm_num) (by norm_num))]
    norm_num
  have hens : ensure_min_stop_distance (some infoC7) "LONG" (50003/50000)
      1 (10011/10000) = (9999/10000, 10011/10000) := by
    simp only [ensure_min_stop_distance, hpts, hpt]
    rw [if_neg (by norm_num)]
    norm_num [hpush, htpr]
  simp only [compute_sl_tp_prices, hL]
  rw [if_neg (by simp)]
  rw [hrawsl, hrawtp, hsl1, htp1, hens]

theorem C7_witness :
    ((strUpper "LONG" = "LONG" →
        x_stop_level_points (some infoC7) * x_point (some infoC7)
            - x_tick_size (some infoC7) / 2 ≤ 1 - 9997/10000
          ∧ x_stop_level_points (some infoC7) * x_point (some infoC7)
            - x_tick_size (some infoC7) / 2 ≤ 1003/1000 - 1)
      ∧ (strUpper "LONG" = "SHORT" →
        x_stop_level_points (some infoC7) * x_point (some infoC7)
            - x_tick_size (some infoC7) / 2 ≤ 9997/10000 - 1
          ∧ x_stop_level_points (some infoC7) * x_point (some infoC7)
            - x_tick_size (some infoC7) / 2 ≤ 1 - 1003/1000))
      ∧ (∃ k : ℤ, (9997/10000 : ℚ) = (k : ℚ) * x_tick_size (some infoC7))
      ∧ (∃ k : ℤ, (1003/1000 : ℚ)
          = (k : ℚ) * x_tick_size (some infoC7)) := by
  have hL : strUpper "LONG" = "LONG" := by decide
  refine C7_min_stop_distance "EURUSD" (some infoC7) "LONG" 1 3 30
    (9997/10000) (1003/1000)
    (by norm_num [x_stop_level_points, infoC7])
    (by norm_num [x_tick_size, x_point, infoC7]) ?_
  have hrawsl : price_from_pips "EURUSD" (some infoC7) 1 3 "LONG" true
      = 9997/10000 := by
    simp only [price_from_pips, pip_size_eurusd_C7]
    norm_num
  have hrawtp : price_from_pips "EURUSD" (some infoC7) 1 30 "LONG" false
      = 1003/1000 := by
    simp only [price_from_pips, pip_size_eurusd_C7]
    norm_num
  have hsl1 : round_to_tick (some infoC7) (9997/10000) = 9997/10000 := by
    rw [round_to_tick_eval_C7 (9997/10000) 9997
      (roundHalfEven_eq_of_lt _ 9997 (by norm_num) (by norm_num))]
    norm_num
  have htp1 : round_to_tick (some infoC7) (1003/1000) = 1003/1000 := by
    rw [round_to_tick_eval_C7 (1003/1000) 10030
      (roundHalfEven_eq_of_lt _ 10030 (by norm_num) (by norm_num))]
    norm_num
  have hpts : x_stop_level_points (some infoC7) = 2 := by
    norm_num [x_stop_level_points, infoC7]
  have hpt : x_point (some infoC7) = 1/10000 := by
    norm_num [x_point, infoC7]
  have hens : ensure_min_stop_distance (some infoC7) "LONG" 1
      (9997/10000) (1003/1000) = (9997/10000, 1003/1000) := by
    simp only [ensure_min_stop_distance, hpts, hpt]
    rw [if_neg (by norm_num)]
    norm_num [hsl1, htp1]
  simp only [compute_sl_tp_prices, hL]
  rw [if_neg (by simp)]
  rw [hrawsl, hrawtp, hsl1, htp1, hens]

end AgenticTrader
